import Mathlib

/-!
Verification development for the NewsVerifyAI claim-verification pipeline.

The definitions below are a shallow embedding of the Python sources:
  app/services/verifier.py, app/services/llm_client.py,
  app/services/news_client.py, app/schemas.py, app/models.py.

Machine-level conventions of the embedding:
  - Python `float` values are modelled as exact rationals (`ℚ`); the claims
    settled here do not depend on binary floating-point rounding.
  - Python exceptions that escape a function are modelled with `Except`.
  - Python `dict`s coming from `json.loads` are modelled as association
    lists with unique keys (the parser below performs last-wins insertion,
    matching `dict` semantics).
  - Python truthiness is modelled explicitly (`jTruthy`).
-/

namespace NewsVerify

set_option maxRecDepth 100000

/-! ### Python string primitives -/

/-- The brace characters, referred to by codepoint throughout. -/
def lbraceChar : Char := Char.ofNat 123

def rbraceChar : Char := Char.ofNat 125

/-- Whitespace recognised by Python `str.strip()` (ASCII subset; the repo
only ever strips ordinary spaces, tabs and newlines). -/
def isPySpace (c : Char) : Bool :=
  c = ' ' || c = '\t' || c = '\n' || c = '\r' || c = Char.ofNat 11 || c = Char.ofNat 12

/-- `str.strip()` on the character list: drop whitespace at both ends. -/
def pyStripList (cs : List Char) : List Char :=
  ((cs.dropWhile isPySpace).reverse.dropWhile isPySpace).reverse

/-- Python `str.strip()`. -/
def pyStrip (s : String) : String :=
  String.mk (pyStripList s.data)

/-- `str.lower()` for the character ranges appearing in this repository
(ASCII letters and the Cyrillic block used by the Russian UI strings). -/
def pyCharLower (c : Char) : Char :=
  let n := c.toNat
  if 65 ≤ n ∧ n ≤ 90 then Char.ofNat (n + 32)
  else if 1040 ≤ n ∧ n ≤ 1071 then Char.ofNat (n + 32)
  else if n = 1025 then Char.ofNat 1105
  else c

def pyLower (s : String) : String :=
  String.mk (s.data.map pyCharLower)

/-- Characters matched by `WORD_PATTERN = re.compile(r"[\w%]+")` in
verifier.py (ASCII word characters, percent, and the Cyrillic block; the
repository's inputs are Russian/English text). -/
def pyWordChar (c : Char) : Bool :=
  c.isAlphanum || c = '_' || c = '%' || (1024 ≤ c.toNat && c.toNat ≤ 1279)

/-- Fuel-indexed worker for `wordTokens` (each recursive call strictly
shortens the character list, so fuel `cs.length + 1` is always enough;
the fuel only serves to keep the recursion structural and hence
kernel-reducible). -/
def wordTokensAux : Nat → List Char → List (List Char)
  | 0, _ => []
  | _, [] => []
  | fuel + 1, c :: cs =>
    if pyWordChar c then
      ((c :: cs).takeWhile pyWordChar) :: wordTokensAux fuel ((c :: cs).dropWhile pyWordChar)
    else
      wordTokensAux fuel cs

/-- `re.findall(r"[\w%]+", s)`: the maximal runs of word characters. -/
def wordTokens (cs : List Char) : List (List Char) := wordTokensAux (cs.length + 1) cs

/-- Does `needle` occur at the start of `haystack`? -/
def listStartsWith : List Char → List Char → Bool
  | [], _ => true
  | _ :: _, [] => false
  | a :: as, b :: bs => a = b && listStartsWith as bs

/-- Python substring containment `needle in haystack`. -/
def subOccurs (needle : List Char) : List Char → Bool
  | [] => needle.isEmpty
  | c :: rest => listStartsWith needle (c :: rest) || subOccurs needle rest

/-! ### UTF-8 encoding (used by `_hash_claim`) -/

def utf8Char (c : Char) : List Nat :=
  let n := c.toNat
  if n < 128 then [n]
  else if n < 2048 then
    [192 + n / 64, 128 + n % 64]
  else if n < 65536 then
    [224 + n / 4096, 128 + (n / 64) % 64, 128 + n % 64]
  else
    [240 + n / 262144, 128 + (n / 4096) % 64, 128 + (n / 64) % 64, 128 + n % 64]

def utf8Encode (s : String) : List Nat :=
  (s.data.map utf8Char).flatten

/-! ### SHA-256 over byte lists, with 32-bit words as `Nat` mod 2^32 -/

def w32 (n : Nat) : Nat := n % 4294967296

def wadd (a b : Nat) : Nat := w32 (a + b)

def wxor (a b : Nat) : Nat := Nat.xor a b

def wand (a b : Nat) : Nat := Nat.land a b

def wnot (a : Nat) : Nat := Nat.xor a 4294967295

def rotr (k n : Nat) : Nat :=
  w32 (Nat.lor (n >>> k) (n <<< (32 - k)))

/-- The 64 SHA-256 round constants (FIPS 180-4), in decimal. -/
def sha256K : List Nat :=
  [1116352408, 1899447441, 3049323471, 3921009573, 961987163,
   1508970993, 2453635748, 2870763221, 3624381080, 310598401,
   607225278, 1426881987, 1925078388, 2162078206, 2614888103,
   3248222580, 3835390401, 4022224774, 264347078, 604807628,
   770255983, 1249150122, 1555081692, 1996064986, 2554220882,
   2821834349, 2952996808, 3210313671, 3336571891, 3584528711,
   113926993, 338241895, 666307205, 773529912, 1294757372,
   1396182291, 1695183700, 1986661051, 2177026350, 2456956037,
   2730485921, 2820302411, 3259730800, 3345764771, 3516065817,
   3600352804, 4094571909, 275423344, 430227734, 506948616,
   659060556, 883997877, 958139571, 1322822218, 1537002063,
   1747873779, 1955562222, 2024104815, 2227730452, 2361852424,
   2428436474, 2756734187, 3204031479, 3329325298]

/-- The 8 SHA-256 initial state words (FIPS 180-4), in decimal. -/
def sha256H0 : List Nat :=
  [1779033703, 3144134277, 1013904242, 2773480762, 1359893119,
   2600822924, 528734635, 1541459225]

/-- Pad a byte message per SHA-256: append 0x80, zeros, and the 64-bit
big-endian bit length, reaching a multiple of 64 bytes. -/
def sha256Pad (msg : List Nat) : List Nat :=
  let len := msg.length
  let bitLen := len * 8
  let zeros := (55 + 64 - len % 64) % 64
  let lenBytes := (List.range 8).map (fun i => (bitLen >>> ((7 - i) * 8)) % 256)
  msg ++ [128] ++ List.replicate zeros 0 ++ lenBytes

def chunks64Aux : Nat → List Nat → List (List Nat)
  | 0, _ => []
  | fuel + 1, bs => if bs = [] then [] else bs.take 64 :: chunks64Aux fuel (bs.drop 64)

def chunks64 (bs : List Nat) : List (List Nat) := chunks64Aux (bs.length + 1) bs

/-- Big-endian 32-bit words of one 64-byte chunk. -/
def chunkWords (chunk : List Nat) : List Nat :=
  (List.range 16).map (fun i =>
    (chunk.getD (4 * i) 0) * 16777216 + (chunk.getD (4 * i + 1) 0) * 65536 +
    (chunk.getD (4 * i + 2) 0) * 256 + chunk.getD (4 * i + 3) 0)

def smallSigma0 (x : Nat) : Nat := wxor (wxor (rotr 7 x) (rotr 18 x)) (x >>> 3)

def smallSigma1 (x : Nat) : Nat := wxor (wxor (rotr 17 x) (rotr 19 x)) (x >>> 10)

def bigSigma0 (x : Nat) : Nat := wxor (wxor (rotr 2 x) (rotr 13 x)) (rotr 22 x)

def bigSigma1 (x : Nat) : Nat := wxor (wxor (rotr 6 x) (rotr 11 x)) (rotr 25 x)

/-- Message schedule: extend 16 words to 64. -/
def sha256Schedule (ws : List Nat) : List Nat :=
  (List.range 48).foldl
    (fun acc _ =>
      let n := acc.length
      let v := w32 (smallSigma1 (acc.getD (n - 2) 0) + acc.getD (n - 7) 0 +
                    smallSigma0 (acc.getD (n - 15) 0) + acc.getD (n - 16) 0)
      acc ++ [v])
    ws

def sha256Round (st : List Nat) (wk : Nat × Nat) : List Nat :=
  let a := st.getD 0 0
  let b := st.getD 1 0
  let c := st.getD 2 0
  let d := st.getD 3 0
  let e := st.getD 4 0
  let f := st.getD 5 0
  let g := st.getD 6 0
  let h := st.getD 7 0
  let ch := wxor (wand e f) (wand (wnot e) g)
  let maj := wxor (wxor (wand a b) (wand a c)) (wand b c)
  let t1 := w32 (h + bigSigma1 e + ch + wk.2 + wk.1)
  let t2 := w32 (bigSigma0 a + maj)
  [wadd t1 t2, a, b, c, wadd d t1, e, f, g]

def sha256Chunk (hs : List Nat) (chunk : List Nat) : List Nat :=
  let ws := sha256Schedule (chunkWords chunk)
  let st := (ws.zip sha256K).foldl sha256Round hs
  (hs.zip st).map (fun p => wadd p.1 p.2)

def hexDigit (d : Nat) : Char :=
  if d < 10 then Char.ofNat (48 + d) else Char.ofNat (87 + d)

def hexWord (n : Nat) : List Char :=
  (List.range 8).map (fun i => hexDigit ((n >>> ((7 - i) * 4)) % 16))

/-- SHA-256 of a byte list, rendered as the usual 64-char lowercase hex
digest (`hashlib.sha256(...).hexdigest()`). -/
def sha256Hex (msg : List Nat) : String :=
  String.mk (((chunks64 (sha256Pad msg)).foldl sha256Chunk sha256H0).map hexWord).flatten

/-! ### JSON values, Python truthiness and `str()` rendering -/

inductive JValue where
  | null
  | bool (b : Bool)
  | num (q : ℚ)
  | str (s : String)
  | arr (elems : List JValue)
  | obj (fields : List (String × JValue))

/-- `dict.get(k)` on an association list with unique keys. -/
def jget (fields : List (String × JValue)) (k : String) : Option JValue :=
  (fields.find? (fun e => e.1 == k)).map (fun e => e.2)

/-- `d[k] = v`: replace in place when the key exists, else append. -/
def objInsert (fields : List (String × JValue)) (k : String) (v : JValue) :
    List (String × JValue) :=
  if fields.any (fun e => e.1 == k) then
    fields.map (fun e => if e.1 == k then (k, v) else e)
  else fields ++ [(k, v)]

/-- Python truthiness of a JSON-decoded value. -/
def jTruthy : JValue → Bool
  | .null => false
  | .bool b => b
  | .num q => decide (q.num ≠ 0)
  | .str s => decide (s ≠ "")
  | .arr es => !es.isEmpty
  | .obj fs => !fs.isEmpty

/-- Truthiness of `d.get(k)`: an absent key gives `None`, which is falsy. -/
def jTruthyOpt : Option JValue → Bool
  | none => false
  | some v => jTruthy v

def digitChar (d : Nat) : Char := Char.ofNat (48 + d)

def natCharsAux : Nat → Nat → List Char
  | 0, _ => []
  | fuel + 1, n =>
    if n < 10 then [digitChar n] else natCharsAux fuel (n / 10) ++ [digitChar (n % 10)]

/-- Decimal digits of a natural number, most significant first. -/
def natChars (n : Nat) : List Char := natCharsAux (n + 1) n

def intChars (n : ℤ) : List Char :=
  if n < 0 then '-' :: natChars n.natAbs else natChars n.natAbs

/-- Rendering of a JSON number by Python `str()`. For integral values this
matches Python exactly; for non-integral values Python prints the shortest
decimal repr of the binary double, which we render as an exact fraction
instead — no claim below depends on those digits, only on the rendering
being deterministic and non-empty. -/
def pyNumStr (q : ℚ) : String :=
  if q.den = 1 then String.mk (intChars q.num)
  else String.mk (intChars q.num ++ '/' :: natChars q.den)

def pyStrAtom : JValue → String
  | .null => "None"
  | .bool true => "True"
  | .bool false => "False"
  | .num q => pyNumStr q
  | .str s => s
  | .arr _ => "[...]"
  | .obj _ => String.mk [lbraceChar] ++ "..." ++ String.mk [rbraceChar]

/-- Python `str()` of a JSON-decoded value. Containers are rendered with
their delimiters and members one level deep (Python `repr`-quotes inner
strings and recurses; only determinism and non-emptiness of this rendering
matter to any claim below, so the nesting is cut off at one level). -/
def pyStr : JValue → String
  | .arr es => "[" ++ String.intercalate ", " (es.map pyStrAtom) ++ "]"
  | .obj fs =>
    String.mk [lbraceChar] ++
      String.intercalate ", " (fs.map (fun e => e.1 ++ ": " ++ pyStrAtom e.2)) ++
      String.mk [rbraceChar]
  | v => pyStrAtom v

def pyStrOpt : Option JValue → String
  | none => "None"
  | some v => pyStr v

/-! ### A model of `json.loads` (strict JSON, as the `json` module accepts;
the `NaN`/`Infinity` extensions are not modelled — no claim depends on
them). -/

def isJsonWS (c : Char) : Bool :=
  c = ' ' || c = '\t' || c = '\n' || c = '\r'

def jsonWS (cs : List Char) : List Char := cs.dropWhile isJsonWS

def hexVal (c : Char) : Option Nat :=
  if '0' ≤ c ∧ c ≤ '9' then some (c.toNat - 48)
  else if 'a' ≤ c ∧ c ≤ 'f' then some (c.toNat - 87)
  else if 'A' ≤ c ∧ c ≤ 'F' then some (c.toNat - 55)
  else none

/-- Parse the body of a JSON string literal (opening quote already
consumed); returns the decoded characters and the remaining input.
Surrogate pairs in `\uXXXX` escapes are combined; a lone surrogate (legal
for Python's `str`, unrepresentable as a Lean `Char`) becomes U+FFFD. -/
def parseJString : Nat → List Char → Option (List Char × List Char)
  | 0, _ => none
  | fuel + 1, cs =>
    match cs with
    | [] => none
    | c :: rest =>
      if c = '"' then some ([], rest)
      else if c = '\\' then
        match rest with
        | [] => none
        | e :: rest2 =>
          if e = '"' then (parseJString fuel rest2).map (fun p => ('"' :: p.1, p.2))
          else if e = '\\' then (parseJString fuel rest2).map (fun p => ('\\' :: p.1, p.2))
          else if e = '/' then (parseJString fuel rest2).map (fun p => ('/' :: p.1, p.2))
          else if e = 'b' then (parseJString fuel rest2).map (fun p => (Char.ofNat 8 :: p.1, p.2))
          else if e = 'f' then (parseJString fuel rest2).map (fun p => (Char.ofNat 12 :: p.1, p.2))
          else if e = 'n' then (parseJString fuel rest2).map (fun p => ('\n' :: p.1, p.2))
          else if e = 'r' then (parseJString fuel rest2).map (fun p => ('\r' :: p.1, p.2))
          else if e = 't' then (parseJString fuel rest2).map (fun p => ('\t' :: p.1, p.2))
          else if e = 'u' then
            match rest2 with
            | h1 :: h2 :: h3 :: h4 :: rest3 =>
              match hexVal h1, hexVal h2, hexVal h3, hexVal h4 with
              | some a, some b, some c2, some d =>
                let n := a * 4096 + b * 256 + c2 * 16 + d
                if 55296 ≤ n ∧ n ≤ 56319 then
                  match rest3 with
                  | '\\' :: 'u' :: g1 :: g2 :: g3 :: g4 :: rest4 =>
                    match hexVal g1, hexVal g2, hexVal g3, hexVal g4 with
                    | some a2, some b2, some c3, some d2 =>
                      let m := a2 * 4096 + b2 * 256 + c3 * 16 + d2
                      if 56320 ≤ m ∧ m ≤ 57343 then
                        let cp := 65536 + (n - 55296) * 1024 + (m - 56320)
                        (parseJString fuel rest4).map (fun p => (Char.ofNat cp :: p.1, p.2))
                      else (parseJString fuel rest3).map (fun p => (Char.ofNat 65533 :: p.1, p.2))
                    | _, _, _, _ =>
                      (parseJString fuel rest3).map (fun p => (Char.ofNat 65533 :: p.1, p.2))
                  | _ => (parseJString fuel rest3).map (fun p => (Char.ofNat 65533 :: p.1, p.2))
                else if 56320 ≤ n ∧ n ≤ 57343 then
                  (parseJString fuel rest3).map (fun p => (Char.ofNat 65533 :: p.1, p.2))
                else (parseJString fuel rest3).map (fun p => (Char.ofNat n :: p.1, p.2))
              | _, _, _, _ => none
            | _ => none
          else none
      else if c.toNat < 32 then none
      else (parseJString fuel rest).map (fun p => (c :: p.1, p.2))

def digitsVal (ds : List Char) : Nat :=
  ds.foldl (fun a c => a * 10 + (c.toNat - 48)) 0

/-- The exact rational value of a decimal literal `± I.D × 10^ex` with
`fracLen` fraction digits (used for both JSON numbers and Python
float-literal strings). All arithmetic is on `Int`/`Nat` plus one `mkRat`,
keeping the definition kernel-reducible. -/
def ratOfDecimal (neg : Bool) (intPart fracLen fracVal : Nat) (ex : ℤ) : ℚ :=
  let ePos : Nat := if 0 ≤ ex then ex.toNat else 0
  let eNeg : Nat := if 0 ≤ ex then 0 else (-ex).toNat
  let n : ℤ := ((intPart * 10 ^ fracLen + fracVal) * 10 ^ ePos : Nat)
  mkRat (if neg then -n else n) (10 ^ fracLen * 10 ^ eNeg)

/-- Parse a JSON number (grammar `-? (0 | [1-9][0-9]*) frac? exp?`). -/
def parseJNumber (cs : List Char) : Option (ℚ × List Char) :=
  let signed := match cs with
    | '-' :: r => (true, r)
    | _ => (false, cs)
  let neg := signed.1
  let cs1 := signed.2
  match cs1 with
  | [] => none
  | c :: _ =>
    if !c.isDigit then none
    else
      let ints := cs1.takeWhile Char.isDigit
      let rest1 := cs1.dropWhile Char.isDigit
      if c = '0' ∧ 1 < ints.length then none
      else
        let fracPart : Option (List Char × List Char) := match rest1 with
          | '.' :: rf =>
            let fds := rf.takeWhile Char.isDigit
            if fds = [] then none else some (fds, rf.dropWhile Char.isDigit)
          | _ => some ([], rest1)
        match fracPart with
        | none => none
        | some (fds, rest2) =>
          let expPart : Option (ℤ × List Char) := match rest2 with
            | e :: rr =>
              if e = 'e' ∨ e = 'E' then
                let esigned : Bool × List Char := match rr with
                  | '-' :: q => (true, q)
                  | '+' :: q => (false, q)
                  | _ => (false, rr)
                let eds := esigned.2.takeWhile Char.isDigit
                if eds = [] then none
                else some ((if esigned.1 then -(digitsVal eds : ℤ) else (digitsVal eds : ℤ)),
                          esigned.2.dropWhile Char.isDigit)
              else some (0, rest2)
            | [] => some (0, [])
          match expPart with
          | none => none
          | some (ex, rest3) =>
            some (ratOfDecimal neg (digitsVal ints) fds.length (digitsVal fds) ex, rest3)

/-- A partially parsed container on the parser stack: an array with the
members seen so far (reversed), or an object with the members seen so far
(reversed) and the key whose value is being parsed. -/
inductive JCtx where
  | inArr (done : List JValue)
  | inObj (done : List (String × JValue)) (key : String)

/-- Parse one atomic JSON value (everything except containers). -/
def parseJAtom (cs : List Char) : Option (JValue × List Char) :=
  match cs with
  | [] => none
  | c :: rest =>
    if c = 'n' then
      if listStartsWith ['u', 'l', 'l'] rest then some (.null, rest.drop 3) else none
    else if c = 't' then
      if listStartsWith ['r', 'u', 'e'] rest then some (.bool true, rest.drop 3) else none
    else if c = 'f' then
      if listStartsWith ['a', 'l', 's', 'e'] rest then some (.bool false, rest.drop 4)
      else none
    else if c = '"' then
      (parseJString (rest.length + 1) rest).map (fun p => (.str (String.mk p.1), p.2))
    else
      (parseJNumber (c :: rest)).map (fun p => (.num p.1, p.2))

/-- One fuel-structural parsing loop over an explicit container stack
(`have = none`: a value is expected next; `have = some v`: the value `v`
has just been completed and the stack decides how to continue). Every
recursive call consumes at least one character, so linear fuel suffices. -/
def parseStep : Nat → List JCtx → Option JValue → List Char → Option (JValue × List Char)
  | 0, _, _, _ => none
  | fuel + 1, stack, none, cs =>
    match jsonWS cs with
    | [] => none
    | c :: rest =>
      if c = lbraceChar then
        match jsonWS rest with
        | c2 :: rest2 =>
          if c2 = rbraceChar then parseStep fuel stack (some (.obj [])) rest2
          else if c2 = '"' then
            match parseJString (rest2.length + 1) rest2 with
            | none => none
            | some (kcs, rest3) =>
              match jsonWS rest3 with
              | ':' :: rest4 =>
                parseStep fuel (.inObj [] (String.mk kcs) :: stack) none rest4
              | _ => none
          else none
        | [] => none
      else if c = '[' then
        match jsonWS rest with
        | c2 :: rest2 =>
          if c2 = ']' then parseStep fuel stack (some (.arr [])) rest2
          else parseStep fuel (.inArr [] :: stack) none (c2 :: rest2)
        | [] => none
      else
        match parseJAtom (c :: rest) with
        | none => none
        | some (v, rest2) => parseStep fuel stack (some v) rest2
  | fuel + 1, stack, some v, cs =>
    match stack with
    | [] => some (v, cs)
    | .inArr done :: stk =>
      match jsonWS cs with
      | ',' :: rest2 => parseStep fuel (.inArr (v :: done) :: stk) none rest2
      | ']' :: rest2 => parseStep fuel stk (some (.arr (v :: done).reverse)) rest2
      | _ => none
    | .inObj done key :: stk =>
      match jsonWS cs with
      | ',' :: rest2 =>
        match jsonWS rest2 with
        | '"' :: kr =>
          match parseJString (kr.length + 1) kr with
          | none => none
          | some (kcs, rest3) =>
            match jsonWS rest3 with
            | ':' :: rest4 =>
              parseStep fuel (.inObj ((key, v) :: done) (String.mk kcs) :: stk) none rest4
            | _ => none
        | _ => none
      | c2 :: rest2 =>
        if c2 = rbraceChar then
          parseStep fuel stk
            (some (.obj (((key, v) :: done).reverse.foldl
              (fun acc kv => objInsert acc kv.1 kv.2) [])))
            rest2
        else none
      | [] => none

/-- Model of `json.loads`: parse one value and require only whitespace to
remain. Object members are folded left-to-right with replace-in-place
insertion, matching `dict` duplicate-key semantics. -/
def jsonParse (s : String) : Option JValue :=
  match parseStep (2 * s.length + 4) [] none s.data with
  | some (v, rest) => if jsonWS rest = [] then some v else none
  | none => none

/-! ### Python exceptions relevant to the pipeline -/

inductive PyErr where
  | attributeError
  | validationError
deriving DecidableEq, Repr

/-- Model of `str(e)` for the exceptions above (the precise Python message
text is irrelevant to every claim; only that it is a fixed non-empty tag). -/
def pyErrText : PyErr → String
  | .attributeError => "AttributeError"
  | .validationError => "ValidationError"

/-! ### llm_client.py: `_parse_llm_response` and `analyze` -/

/-- Python `float(x)` applied to a converted JSON value, `none` when the
call raises (`TypeError`/`ValueError`). `float(True) = 1.0`; strings are
parsed as Python float literals. -/
def pyParseFloat (s : String) : Option ℚ :=
  let cs := pyStripList s.data
  let signed : Bool × List Char := match cs with
    | '-' :: r => (true, r)
    | '+' :: r => (false, r)
    | _ => (false, cs)
  let ints := signed.2.takeWhile Char.isDigit
  let r1 := signed.2.dropWhile Char.isDigit
  let fracPart : List Char × List Char := match r1 with
    | '.' :: rf => (rf.takeWhile Char.isDigit, rf.dropWhile Char.isDigit)
    | _ => ([], r1)
  let fds := fracPart.1
  let r2 := fracPart.2
  if ints = [] ∧ fds = [] then none
  else
    let expPart : Option (ℤ × List Char) := match r2 with
      | e :: rr =>
        if e = 'e' ∨ e = 'E' then
          let esigned : Bool × List Char := match rr with
            | '-' :: q => (true, q)
            | '+' :: q => (false, q)
            | _ => (false, rr)
          let eds := esigned.2.takeWhile Char.isDigit
          if eds = [] then none
          else some ((if esigned.1 then -(digitsVal eds : ℤ) else (digitsVal eds : ℤ)),
                    esigned.2.dropWhile Char.isDigit)
        else some (0, r2)
      | [] => some (0, [])
    match expPart with
    | none => none
    | some (ex, r3) =>
      if r3 ≠ [] then none
      else some (ratOfDecimal signed.1 (digitsVal ints) fds.length (digitsVal fds) ex)

def pyFloatCoerce : Option JValue → Option ℚ
  | none => none
  | some .null => none
  | some (.num q) => some q
  | some (.bool b) => some (if b then 1 else 0)
  | some (.str s) => pyParseFloat s
  | some (.arr _) => none
  | some (.obj _) => none

/-- The regex `_JSON_PATTERN = re.compile(r"\x7b.*\x7d", re.DOTALL)`:
a greedy match from the first opening brace to the last closing brace. -/
def greedySpan (cs : List Char) : Option (List Char) :=
  match cs.dropWhile (fun c => c != lbraceChar) with
  | [] => none
  | _ :: tail =>
    match tail.reverse.dropWhile (fun c => c != rbraceChar) with
    | [] => none
    | _ :: midRev => some (lbraceChar :: midRev.reverse ++ [rbraceChar])

def llmEmptyExplanation : String := "LLM вернул пустое объяснение."

/-- The body of `_parse_llm_response` after a successful `json.loads`:
`json_candidate.get(...)` raises `AttributeError` when the decoded value is
not a dict (only `JSONDecodeError` is caught by the function). -/
def extractPair : JValue → Except PyErr (Option (ℚ × String))
  | .obj fs =>
    let probability := jget fs "probability"
    let p : ℚ := match pyFloatCoerce probability with
      | some q => q
      | none => mkRat 1 2
    let pMin := if p < 1 then p else 1
    let pClamped := if 0 < pMin then pMin else 0
    let explanation := jget fs "explanation"
    let expl := if jTruthyOpt explanation then pyStrOpt explanation else llmEmptyExplanation
    .ok (some (pClamped, expl))
  | _ => .error .attributeError

/-- `LLMClient._parse_llm_response`. -/
def parseLLMResponse (content : String) : Except PyErr (Option (ℚ × String)) :=
  match jsonParse content with
  | some v => extractPair v
  | none =>
    match greedySpan content.data with
    | none => .ok none
    | some span =>
      match jsonParse (String.mk span) with
      | some v => extractPair v
      | none => .ok none

/-- Outcome of the HTTP call inside `LLMClient.analyze`: either some
exception escaped the request/response handling (transport error, JSON
body decode failure, missing `choices`, ...), or a response with a status
code and the extracted message content. -/
inductive HttpOutcome where
  | exn (msg : String)
  | status (code : Nat) (content : String)

def llmUnavailable (msg : String) : String := "AI-анализ временно недоступен: " ++ msg

def llmUnparsable : String := "AI-анализ вернул ответ, который не удалось разобрать."

/-- `LLMClient.analyze`: `None` when the API key is missing or the status
is not 200; otherwise the parsed pair, with parse failures and exceptions
collapsed into degraded `(0.3, ...)` judgments. -/
def analyze (apiKey : String) (o : HttpOutcome) : Option (ℚ × String) :=
  if apiKey = "" then none
  else
    match o with
    | .exn msg => some (mkRat 3 10, llmUnavailable msg)
    | .status code content =>
      if code ≠ 200 then none
      else
        match parseLLMResponse content with
        | .error e => some (mkRat 3 10, llmUnavailable (pyErrText e))
        | .ok none => some (mkRat 3 10, llmUnparsable)
        | .ok (some pe) => some pe

/-! ### schemas.py data model and verifier.py helpers -/

/-- `NewsSource` exactly as declared in schemas.py: note there is **no**
`summary` field (news_client.py passes `summary=...`, which pydantic v1
silently ignores since `Config.extra` defaults to ignore). `url` is a
required `str`. `published_at` is modelled as the ISO text of the
datetime. -/
structure NewsSource where
  title : String
  description : Option String
  url : String
  published_at : Option String
  source_name : Option String
deriving DecidableEq, Repr

/-- The spec's NewsItem restricted to the four text fields that
`_filter_news_by_keywords` reads (`title`, `description`, `summary`,
`source_name`); the function itself is duck-typed over any item carrying
these attributes. -/
structure NewsDoc where
  title : String
  description : Option String
  summary : Option String
  source_name : Option String
deriving DecidableEq, Repr

/-- `" ".join(filter(None, fields)).lower()`: drop falsy fields (absent or
empty strings), join with spaces, lowercase. -/
def joinFieldsLower (fields : List (Option String)) : String :=
  pyLower (String.intercalate " " ((fields.filterMap id).filter (fun s => s != "")))

/-- `sum(1 for kw in keywords if kw in text)`. -/
def textHits (keywords : List String) (text : String) : Nat :=
  keywords.countP (fun kw => subOccurs kw.data text.data)

/-- The hit threshold of `_filter_news_by_keywords`. -/
def minHitsOf (keywords : List String) : Nat :=
  if keywords.length ≤ 3 then 1 else 2

def newsDocText (it : NewsDoc) : String :=
  joinFieldsLower [some it.title, it.description, it.summary, it.source_name]

def newsHits (it : NewsDoc) (keywords : List String) : Nat :=
  textHits keywords (newsDocText it)

/-- `_filter_news_by_keywords` applied to items that do carry all four
text attributes (the data model's NewsItem). -/
def filterNewsByKeywords (newsList : List NewsDoc) (keywords : List String) : List NewsDoc :=
  if keywords.isEmpty then newsList
  else newsList.filter (fun item => decide (minHitsOf keywords ≤ newsHits item keywords))

/-- Python attribute access on a `NewsSource` instance. schemas.py
declares no `summary` attribute, so reading it raises `AttributeError`. -/
def nsGetAttr (it : NewsSource) : String → Except PyErr (Option String)
  | "title" => .ok (some it.title)
  | "description" => .ok it.description
  | "url" => .ok (some it.url)
  | "published_at" => .ok it.published_at
  | "source_name" => .ok it.source_name
  | _ => .error .attributeError

/-- The four attribute reads of the filter loop body, in source order. -/
def nsFieldTexts (it : NewsSource) : Except PyErr (List (Option String)) := do
  let a ← nsGetAttr it "title"
  let b ← nsGetAttr it "description"
  let c ← nsGetAttr it "summary"
  let d ← nsGetAttr it "source_name"
  .ok [a, b, c, d]

def filterNewsPipelineAux (keywords : List String) (minHits : Nat) :
    List NewsSource → Except PyErr (List NewsSource)
  | [] => .ok []
  | it :: rest => do
    let fields ← nsFieldTexts it
    let text := joinFieldsLower fields
    let hits := textHits keywords text
    let tail ← filterNewsPipelineAux keywords minHits rest
    .ok (if minHits ≤ hits then it :: tail else tail)

/-- `_filter_news_by_keywords` as actually invoked by `verify_claim`, on
`NewsSource` instances (which lack the `summary` attribute). -/
def filterNewsPipeline (newsList : List NewsSource) (keywords : List String) :
    Except PyErr (List NewsSource) :=
  if keywords.isEmpty then .ok newsList
  else filterNewsPipelineAux keywords (minHitsOf keywords) newsList

def STOP_WORDS : List String :=
  ["на", "и", "в", "во", "к", "ко", "по", "из", "за", "от", "для", "как", "что",
   "это", "этот", "эта", "эти", "последний", "месяц", "месяца", "год", "года"]

def keepToken (t : String) : Bool :=
  decide (3 ≤ t.length) && !(STOP_WORDS.contains t)

def dedupAux : List String → List String → List String
  | _, [] => []
  | seen, t :: ts => if seen.contains t then dedupAux seen ts else t :: dedupAux (t :: seen) ts

def dedupKeep (l : List String) : List String := dedupAux [] l

def tokensOf (s : String) : List String :=
  (wordTokens (pyLower s).data).map String.mk

/-- `_collect_keywords`: word tokens of the lowered claim and of every
entity value, keeping tokens of length ≥ 3 outside the stop list,
deduplicated (the Python code uses a `set`, whose iteration order is
unspecified; we fix first-occurrence order — no downstream computation
depends on the order, only on membership and cardinality). -/
def collectKeywords (claim : String) (entities : List (String × List String)) : List String :=
  let claimToks := (tokensOf claim).filter keepToken
  let entToks :=
    ((entities.map (fun e => e.2)).flatten.map (fun v => (tokensOf v).filter keepToken)).flatten
  dedupKeep (claimToks ++ entToks)

/-- `_hash_claim`: sha256 over the stripped text bytes concatenated with
the style bytes, hex digest. -/
def hash_claim (text style : String) : String :=
  sha256Hex (utf8Encode (pyStrip text) ++ utf8Encode style)

/-! ### schemas.py response model -/

inductive Style where
  | formal
  | simple
deriving DecidableEq, Repr

def styleStr : Style → String
  | .formal => "formal"
  | .simple => "simple"

inductive Status where
  | confirmed
  | not_found
  | uncertain
deriving DecidableEq, Repr

def statusStr : Status → String
  | .confirmed => "confirmed"
  | .not_found => "not_found"
  | .uncertain => "uncertain"

structure CheckRequest where
  text : String
  style : Style
deriving DecidableEq, Repr

structure ClaimAnalysis where
  status : Status
  probability : Option ℚ
  explanation : String
  matched_sources : List NewsSource
deriving DecidableEq, Repr

structure CheckResponse where
  claim : String
  style : Style
  analysis : ClaimAnalysis
  cached : Bool
deriving DecidableEq, Repr

/-! ### verifier.py explanation formatters -/

/-- Round `100 * q` to the nearest integer, ties to even (the rounding of
`format(x, ".2f")`; applied to the exact rational rather than the binary
double — no claim depends on the difference). Computed on `Int` to stay
kernel-reducible. -/
def roundCentiHalfEven (q : ℚ) : ℤ :=
  let a := q.num * 100
  let b : ℤ := (q.den : ℤ)
  let f := Int.fdiv a b
  let r := a - f * b
  if 2 * r < b then f
  else if b < 2 * r then f + 1
  else if f % 2 = 0 then f else f + 1

def natPad2 (n : Nat) : String :=
  if n < 10 then "0" ++ String.mk (natChars n) else String.mk (natChars n)

/-- `f"\x7bq:.2f\x7d"`. -/
def format2 (q : ℚ) : String :=
  let n := roundCentiHalfEven q
  let a := n.natAbs
  (if n < 0 then "-" else "") ++ String.mk (natChars (a / 100)) ++ "." ++ natPad2 (a % 100)

def probText : Option ℚ → String
  | some p => format2 p
  | none => "не определена"

def entitiesText (entities : List (String × List String)) : String :=
  let ps := (entities.filter (fun e => !e.2.isEmpty)).map
    (fun e => e.1 ++ ": " ++ String.intercalate ", " e.2)
  if ps.isEmpty then "ключевые сущности не выделены" else String.intercalate "; " ps

def statusHuman (status : String) : String :=
  if status = "confirmed" then "подтверждено новостными источниками"
  else if status = "not_found" then "подтверждений в новостях не найдено (низкая вероятность события)"
  else if status = "uncertain" then "прямых подтверждений нет (событие умеренно правдоподобно)"
  else status

/-- `_format_formal_explanation`. -/
def format_formal_explanation (claim status : String) (probability : Option ℚ)
    (entities : List (String × List String)) (newsCount : Nat)
    (baseExplanation : String) : String :=
  "Проведена автоматическая проверка утверждения:\n\n«" ++ claim ++ "».\n\n" ++
  "На основе анализа новостных публикаций и извлечённых сущностей " ++
  "система сформировала следующий вывод: " ++ statusHuman status ++ ". " ++
  "Оценочная вероятность истинности события: " ++ probText probability ++ ".\n\n" ++
  "Выделенные сущности: " ++ entitiesText entities ++ ". " ++
  "Количество релевантных публикаций за последнюю неделю: " ++
  String.mk (natChars newsCount) ++ ". " ++
  "Дополнительный анализ (AI):\n\n" ++ baseExplanation ++ "\n\n" ++
  "Вывод носит вероятностный характер и не является юридически значимым."

/-- `_format_simple_explanation`. -/
def format_simple_explanation (status : String) (probability : Option ℚ) : String :=
  match probability with
  | none => "Нет данных для оценки."
  | some p =>
    let base :=
      if status = "confirmed" then "Нашли подтверждение в новостях."
      else if status = "not_found" then "В новостях не нашли подтверждений. Событие маловероятно."
      else "Прямых подтверждений нет."
    let probT :=
      if mkRat 8 10 ≤ p then "Вероятно, это правда."
      else if mkRat 5 10 ≤ p then "Похоже на правду, но не точно."
      else if mkRat 3 10 ≤ p then "Сомнительно."
      else "Маловероятно."
    pyStrip (base ++ " " ++ probT)

/-! ### Serialization of `CheckResponse` (pydantic v1 `.json()`) and the
corresponding re-validation `CheckResponse(**data)` -/

def optStrJ : Option String → JValue
  | none => .null
  | some s => .str s

def newsSourceToJson (it : NewsSource) : JValue :=
  .obj [("title", .str it.title), ("description", optStrJ it.description),
        ("url", .str it.url), ("published_at", optStrJ it.published_at),
        ("source_name", optStrJ it.source_name)]

/-- The JSON object fields written by `resp_obj.json()`. -/
def respToJson (r : CheckResponse) : List (String × JValue) :=
  [("claim", .str r.claim), ("style", .str (styleStr r.style)),
   ("analysis", .obj
     [("status", .str (statusStr r.analysis.status)),
      ("probability", match r.analysis.probability with
        | none => .null
        | some p => .num p),
      ("explanation", .str r.analysis.explanation),
      ("matched_sources", .arr (r.analysis.matched_sources.map newsSourceToJson))]),
   ("cached", .bool r.cached)]

/-- pydantic v1 coercion to `str` (required field): strings pass,
numbers and bools are stringified, everything else is a ValidationError. -/
def pyStrCoerce : Option JValue → Except PyErr String
  | some (.str s) => .ok s
  | some (.num q) => .ok (pyNumStr q)
  | some (.bool b) => .ok (if b then "True" else "False")
  | _ => .error .validationError

def pyOptStrCoerce : Option JValue → Except PyErr (Option String)
  | none => .ok none
  | some .null => .ok none
  | some (.str s) => .ok (some s)
  | some (.num q) => .ok (some (pyNumStr q))
  | some (.bool b) => .ok (some (if b then "True" else "False"))
  | _ => .error .validationError

def statusFromJ : Option JValue → Except PyErr Status
  | some (.str s) =>
    if s = "confirmed" then .ok .confirmed
    else if s = "not_found" then .ok .not_found
    else if s = "uncertain" then .ok .uncertain
    else .error .validationError
  | _ => .error .validationError

def styleFromJ : Option JValue → Except PyErr Style
  | some (.str s) =>
    if s = "formal" then .ok .formal
    else if s = "simple" then .ok .simple
    else .error .validationError
  | _ => .error .validationError

/-- `probability: float | None = Field(None, ge=0.0, le=1.0)`. -/
def probFromJ : Option JValue → Except PyErr (Option ℚ)
  | none => .ok none
  | some .null => .ok none
  | some v =>
    match pyFloatCoerce (some v) with
    | none => .error .validationError
    | some q => if 0 ≤ q ∧ q ≤ 1 then .ok (some q) else .error .validationError

/-- pydantic v1 bool coercion for `cached` (default `False`). -/
def cachedFromJ : Option JValue → Except PyErr Bool
  | none => .ok false
  | some (.bool b) => .ok b
  | some (.num q) =>
    if q = 0 then .ok false else if q = 1 then .ok true else .error .validationError
  | some (.str s) =>
    let t := pyLower s
    if ["1", "on", "t", "true", "y", "yes"].contains t then .ok true
    else if ["0", "off", "f", "false", "n", "no"].contains t then .ok false
    else .error .validationError
  | _ => .error .validationError

/-- `published_at: datetime | None`: modelled as the ISO text. (Python
additionally accepts numeric timestamps and rejects unparseable strings;
entries written by this program store null or an ISO string, and no claim
depends on the difference.) -/
def pubAtFromJ : Option JValue → Except PyErr (Option String)
  | none => .ok none
  | some .null => .ok none
  | some (.str s) => .ok (some s)
  | _ => .error .validationError

def newsSourceFromJ : JValue → Except PyErr NewsSource
  | .obj fs => do
    let title ← pyStrCoerce (jget fs "title")
    let description ← pyOptStrCoerce (jget fs "description")
    let url ← pyStrCoerce (jget fs "url")
    let published_at ← pubAtFromJ (jget fs "published_at")
    let source_name ← pyOptStrCoerce (jget fs "source_name")
    .ok ⟨title, description, url, published_at, source_name⟩
  | _ => .error .validationError

def newsListFromJ : Option JValue → Except PyErr (List NewsSource)
  | none => .ok []
  | some (.arr es) => es.mapM newsSourceFromJ
  | _ => .error .validationError

def analysisFromJ : Option JValue → Except PyErr ClaimAnalysis
  | some (.obj fs) => do
    let status ← statusFromJ (jget fs "status")
    let probability ← probFromJ (jget fs "probability")
    let explanation ← pyStrCoerce (jget fs "explanation")
    let matched ← newsListFromJ (jget fs "matched_sources")
    .ok ⟨status, probability, explanation, matched⟩
  | _ => .error .validationError

/-- `CheckResponse(**data)` on a decoded JSON object. -/
def respFromJson (fs : List (String × JValue)) : Except PyErr CheckResponse := do
  let claim ← pyStrCoerce (jget fs "claim")
  let style ← styleFromJ (jget fs "style")
  let analysis ← analysisFromJ (jget fs "analysis")
  let cached ← cachedFromJ (jget fs "cached")
  .ok ⟨claim, style, analysis, cached⟩

/-! ### verifier.py: cache-schema check and the orchestrator -/

/-- One matched-source item check of `_is_cache_entry_modern`: a dict with
a truthy title and a `url` key (the value may be null). -/
def titledWithUrl : JValue → Bool
  | .obj ifs => jTruthyOpt (jget ifs "title") && ifs.any (fun e => e.1 == "url")
  | _ => false

/-- `_is_cache_entry_modern`. -/
def is_cache_entry_modern (fs : List (String × JValue)) : Bool :=
  match jget fs "analysis" with
  | some (.obj afs) =>
    match jget afs "matched_sources" with
    | none => true
    | some .null => true
    | some (.arr items) => items.all titledWithUrl
    | some _ => false
  | _ => false

/-- Modelled from the claim wording (C4, spec §3): a cache entry is
schema-valid when its matched-source list, if present, is a well-formed
sequence of structured records each carrying at least a (truthy) title. -/
def claimValidSchema (fs : List (String × JValue)) : Bool :=
  match jget fs "analysis" with
  | some (.obj afs) =>
    match jget afs "matched_sources" with
    | none => true
    | some .null => true
    | some (.arr items) =>
      items.all (fun it =>
        match it with
        | .obj ifs => jTruthyOpt (jget ifs "title")
        | _ => false)
    | some _ => false
  | _ => true

/-- Outcome of `asyncio.wait_for(llm_client.analyze(...), timeout=10)`:
expiry, an exception, or completion with `analyze`'s return value. -/
inductive FallbackEvent where
  | timeout
  | exn (msg : String)
  | completed (result : Option (ℚ × String))

def llmTimeoutMsg : String :=
  "AI-анализ не завершился за отведённое время (таймаут). Использована эвристическая оценка."

def llmNoResultMsg : String := "AI-анализ не предоставил результатов."

def llmFallbackEmptyMsg : String := "AI-анализ вернул пустое объяснение."

def llmFinalEmptyMsg : String :=
  "AI-анализ недоступен или не дал результата. Использована эвристическая оценка."

/-- The try/except block of the fallback branch (verifier.py lines
246-273): (probability, llm_explanation) after exception handling. -/
def fallbackJudgment : FallbackEvent → ℚ × String
  | .completed none => (mkRat 3 10, llmNoResultMsg)
  | .completed (some pe) => (pe.1, if pe.2 = "" then llmFallbackEmptyMsg else pe.2)
  | .timeout => (mkRat 3 10, llmTimeoutMsg)
  | .exn m => (mkRat 3 10, llmUnavailable m)

/-- The final `if not llm_explanation` re-check (line 275). -/
def fallbackFinal (ev : FallbackEvent) : ℚ × String :=
  let pj := fallbackJudgment ev
  (pj.1, if pj.2 = "" then llmFinalEmptyMsg else pj.2)

/-- The external world one `verify_claim` run interacts with: the entity
extractor's output, the news client's results, and the fate of the
timeout-wrapped `analyze` call. All three are deterministic capabilities
from the orchestrator's point of view. -/
structure VerifyEnv where
  entities : List (String × List String)
  news : List NewsSource
  fallback : FallbackEvent

def pipelineClaim (payload : CheckRequest) : String := pyStrip payload.text

def pipelineKey (payload : CheckRequest) : String :=
  hash_claim (pipelineClaim payload) (styleStr payload.style)

def pipelineKeywords (env : VerifyEnv) (payload : CheckRequest) : List String :=
  collectKeywords (pipelineClaim payload) env.entities

def confirmedBase (n : Nat) : String :=
  "По найденным новостным публикациям утверждении вероятно подтверждается. Найдено совпадений: " ++
    String.mk (natChars n) ++ "."

/-- Branch selection and formatting of `verify_claim` once the filtered
corroboration list is known (verifier.py lines 226-303). -/
def branchResp (env : VerifyEnv) (payload : CheckRequest) (filtered : List NewsSource) :
    CheckResponse :=
  let claim := pipelineClaim payload
  let style := payload.style
  let branch : Status × ℚ × String × List NewsSource :=
    if filtered.isEmpty then
      let pj := fallbackFinal env.fallback
      ((if mkRat 4 10 ≤ pj.1 then Status.uncertain else Status.not_found), pj.1, pj.2, [])
    else (Status.confirmed, mkRat 9 10, confirmedBase filtered.length, filtered.take 5)
  let status := branch.1
  let probability := branch.2.1
  let explanationBase := branch.2.2.1
  let newsPayload := branch.2.2.2
  let explanation :=
    match style with
    | .formal =>
      format_formal_explanation claim (statusStr status) (some probability)
        env.entities newsPayload.length explanationBase
    | .simple => format_simple_explanation (statusStr status) (some probability)
  ⟨claim, style, ⟨status, some probability, explanation, newsPayload⟩, false⟩

/-- The cache-miss pipeline of `verify_claim` (entity extraction, news
search, keyword filtering, branch selection, formatting), producing the
response that is then stored. The `extract_ngrams` call of the source is
computed and discarded (only logged), so it is omitted. -/
def pipelineResp (env : VerifyEnv) (payload : CheckRequest) : Except PyErr CheckResponse :=
  match filterNewsPipeline env.news (pipelineKeywords env payload) with
  | .error e => .error e
  | .ok filtered => .ok (branchResp env payload filtered)

/-- `db.query(CachedResult).filter_by(claim_hash=k).first()`, with the
stored `result_json` already decoded to a JSON value. -/
def dbLookup (db : List (String × JValue)) (k : String) : Option JValue :=
  (db.find? (fun e => e.1 == k)).map (fun e => e.2)

/-- `db.delete(row); db.commit()` for the row found by the lookup. -/
def dbErase (db : List (String × JValue)) (k : String) : List (String × JValue) :=
  db.eraseP (fun e => e.1 == k)

/-- `verify_claim` against a healthy cache store: commits never fail (a
failing store is the one infrastructure error the spec deliberately lets
propagate, and is outside this model). -/
def verify (env : VerifyEnv) (db : List (String × JValue)) (payload : CheckRequest) :
    Except PyErr (CheckResponse × List (String × JValue)) :=
  let key := pipelineKey payload
  match dbLookup db key with
  | some (.obj fs) =>
    if is_cache_entry_modern fs then
      match respFromJson (objInsert fs "cached" (.bool true)) with
      | .ok resp => .ok (resp, db)
      | .error e => .error e
    else
      (pipelineResp env payload).map
        (fun r => (r, (key, JValue.obj (respToJson r)) :: dbErase db key))
  | some _ => .error .attributeError
  | none =>
    (pipelineResp env payload).map
      (fun r => (r, (key, JValue.obj (respToJson r)) :: db))

/-! ### Claim-side reference definitions and concrete instances -/

/-- Worker for `firstBalanced`: consume characters tracking brace depth
until the depth returns to zero. -/
def balancedChunk : Nat → Nat → List Char → Option (List Char)
  | 0, _, _ => none
  | _ + 1, _, [] => none
  | fuel + 1, depth, c :: rest =>
    if c = rbraceChar then
      if depth = 1 then some [c]
      else (balancedChunk fuel (depth - 1) rest).map (fun l => c :: l)
    else if c = lbraceChar then
      (balancedChunk fuel (depth + 1) rest).map (fun l => c :: l)
    else
      (balancedChunk fuel depth rest).map (fun l => c :: l)

/-- Modelled from the claim wording (C9): the first balanced brace
substring of the text, by brace-depth counting from the first opening
brace. (This notion does not special-case braces inside JSON string
literals; the counterexample below contains none.) -/
def firstBalanced (cs : List Char) : Option (List Char) :=
  match cs.dropWhile (fun c => c != lbraceChar) with
  | [] => none
  | c :: rest => (balancedChunk (rest.length + 1) 1 rest).map (fun l => c :: l)

/-- Modelled from the claim wording (C9): the parser the claim describes —
identical to `_parse_llm_response` except that the fallback decodes the
*first balanced* brace substring instead of the greedy first-to-last
span. -/
def claimParse (content : String) : Except PyErr (Option (ℚ × String)) :=
  match jsonParse content with
  | some v => extractPair v
  | none =>
    match firstBalanced content.data with
    | none => .ok none
    | some span =>
      match jsonParse (String.mk span) with
      | some v => extractPair v
      | none => .ok none

/-- An execution of `verify_claim` reaches the search state exactly when
the cache lookup misses, or hits an entry (a JSON object) that fails the
modern-schema check and is evicted. -/
def ReachesSearch (db : List (String × JValue)) (payload : CheckRequest) : Prop :=
  dbLookup db (pipelineKey payload) = none ∨
    ∃ fs, dbLookup db (pipelineKey payload) = some (.obj fs) ∧
      is_cache_entry_modern fs = false

def c2news : List NewsSource :=
  [⟨"Apple launches product X", none, "http://example.com", none, some "Wire"⟩]

def c2env : VerifyEnv := ⟨[], c2news, .completed none⟩

def c2payload : CheckRequest := ⟨"Apple launches product", .simple⟩

/-- The raw LLM response of the C9 counterexample: two complete JSON
objects with junk between and around them. -/
def c9raw : String :=
  "a\x7b\"probability\":0.7,\"explanation\":\"e\"\x7db\x7b\"x\":1\x7dc"

/-- The C4 counterexample cache entry: its matched-source item is a
structured record with a (truthy) title, but carries no `url` key. -/
def c4entry : List (String × JValue) :=
  [("claim", .str "Rain expected in Astana"), ("style", .str "simple"),
   ("analysis", .obj
     [("status", .str "confirmed"), ("probability", .num (mkRat 9 10)),
      ("explanation", .str "ok"),
      ("matched_sources", .arr [.obj [("title", .str "Titled source")]])]),
   ("cached", .bool false)]

def c4payload : CheckRequest := ⟨"Rain expected in Astana", .simple⟩

def c4env : VerifyEnv := ⟨[], [], .completed none⟩

def c4db : List (String × JValue) := [(pipelineKey c4payload, .obj c4entry)]

/-- C4 amended-claim witness data: a legacy entry whose `analysis` is a
bare string rather than a dict. -/
def c4wEntry : List (String × JValue) := [("analysis", .str "legacy")]

def c4wPayload : CheckRequest := ⟨"Snow in Almaty today", .simple⟩

def c4wEnv : VerifyEnv := ⟨[], [], .completed none⟩

def c4wDb : List (String × JValue) := [(pipelineKey c4wPayload, .obj c4wEntry)]

def c1env : VerifyEnv := ⟨[], [], .completed none⟩

def c1payload : CheckRequest := ⟨"Hello world claim", .simple⟩

def c6news : List NewsSource := [⟨"Paris summit", none, "http://example.com/1", none, none⟩]

def c6env : VerifyEnv := ⟨[], c6news, .completed none⟩

/-- A claim text all of whose tokens are shorter than 3 characters, so
the keyword set is empty and filtering passes every news item through. -/
def c6payload : CheckRequest := ⟨"на из за", .simple⟩

def c7env : VerifyEnv := ⟨[], [], .completed (some (mkRat 1 2, "ответ модели"))⟩

def c7payload : CheckRequest := ⟨"Something happened today", .simple⟩

def c8env : VerifyEnv := ⟨[], [], .timeout⟩

def c8payload : CheckRequest := ⟨"Something happened today maybe", .formal⟩

def c5raw : String := "\x7b\"probability\": 0.25, \"explanation\": \"ok\"\x7d"

/-! ## General helper lemmas -/

theorem sdata_append (a b : String) : (a ++ b).data = a.data ++ b.data := by
  cases a
  cases b
  rfl

theorem dropWhile_append_of_all {α : Type} (p : α → Bool) (l₁ l₂ : List α)
    (h : ∀ a ∈ l₁, p a = true) : (l₁ ++ l₂).dropWhile p = l₂.dropWhile p := by
  induction l₁ with
  | nil => simp
  | cons a as ih =>
    simp only [List.cons_append]
    rw [List.dropWhile_cons_of_pos (h a (by simp))]
    exact ih (fun x hx => h x (by simp [hx]))

theorem dropWhile_eq_nil_of_all {α : Type} (p : α → Bool) (l : List α)
    (h : ∀ a ∈ l, p a = true) : l.dropWhile p = [] :=
  List.dropWhile_eq_nil_iff.mpr h

theorem stripL_append_of_ne_nil (t trail : List Char)
    (h : t.dropWhile isPySpace ≠ []) :
    (t ++ trail).dropWhile isPySpace = t.dropWhile isPySpace ++ trail := by
  induction t with
  | nil => simp [List.dropWhile] at h
  | cons c cs ih =>
    by_cases hc : isPySpace c = true
    · rw [List.dropWhile_cons_of_pos hc] at h
      simp only [List.cons_append]
      rw [List.dropWhile_cons_of_pos hc, List.dropWhile_cons_of_pos hc]
      exact ih h
    · simp only [List.cons_append]
      rw [List.dropWhile_cons_of_neg hc, List.dropWhile_cons_of_neg hc]
      simp

theorem pyStripList_ws_left (lead t : List Char)
    (h : ∀ c ∈ lead, isPySpace c = true) :
    pyStripList (lead ++ t) = pyStripList t := by
  unfold pyStripList
  rw [dropWhile_append_of_all _ _ _ h]

theorem pyStripList_ws_right (t trail : List Char)
    (h : ∀ c ∈ trail, isPySpace c = true) :
    pyStripList (t ++ trail) = pyStripList t := by
  by_cases ht : t.dropWhile isPySpace = []
  · unfold pyStripList
    rw [dropWhile_append_of_all _ _ _ (List.dropWhile_eq_nil_iff.mp ht),
        dropWhile_eq_nil_of_all _ _ h, ht]
  · unfold pyStripList
    rw [stripL_append_of_ne_nil t trail ht, List.reverse_append,
        dropWhile_append_of_all _ _ _ (fun c hc => h c (List.mem_reverse.mp hc))]

theorem pyStrip_pad (t lead trail : String)
    (h1 : ∀ c ∈ lead.data, isPySpace c = true)
    (h2 : ∀ c ∈ trail.data, isPySpace c = true) :
    pyStrip (lead ++ t ++ trail) = pyStrip t := by
  unfold pyStrip
  have hd : (lead ++ t ++ trail).data = lead.data ++ (t.data ++ trail.data) := by
    rw [sdata_append, sdata_append, List.append_assoc]
  rw [hd, pyStripList_ws_left _ _ h1, pyStripList_ws_right _ _ h2]

/-! ## C10: whitespace invariance of the fingerprint -/

/-- C10: for every claim text and style, `_hash_claim` is invariant under
adding leading or trailing whitespace to the text (the text is stripped
before hashing), so two verify requests differing only in surrounding
whitespace share one cache key. -/
theorem c10_fingerprint_whitespace (t s lead trail : String)
    (h1 : ∀ c ∈ lead.data, isPySpace c = true)
    (h2 : ∀ c ∈ trail.data, isPySpace c = true) :
    hash_claim (lead ++ t ++ trail) s = hash_claim t s ∧
    ∀ st : Style, pipelineKey ⟨lead ++ t ++ trail, st⟩ = pipelineKey ⟨t, st⟩ := by
  constructor
  · unfold hash_claim
    rw [pyStrip_pad t lead trail h1 h2]
  · intro st
    simp only [pipelineKey, pipelineClaim]
    rw [pyStrip_pad t lead trail h1 h2]

/-- Witness for C10 at a concrete padded input. -/
theorem c10_fingerprint_whitespace_witness :
    (∀ c ∈ ("  " : String).data, isPySpace c = true) ∧
    hash_claim ("  " ++ "Hello world" ++ " \n") "simple" = hash_claim "Hello world" "simple" :=
  ⟨by decide,
   (c10_fingerprint_whitespace "Hello world" "simple" "  " " \n" (by decide) (by decide)).1⟩

/-! ## C3: corroboration filter threshold -/

/-- C3: `_filter_news_by_keywords` over items carrying the four text
attributes: with an empty keyword set it returns the list unchanged; with
a non-empty keyword set an item is kept exactly when its keyword-hit count
meets the threshold of 1 for at most 3 keywords and 2 otherwise. -/
theorem c3_filter_threshold (items : List NewsDoc) (keywords : List String) (it : NewsDoc) :
    filterNewsByKeywords items [] = items ∧
    (keywords ≠ [] →
      (it ∈ filterNewsByKeywords items keywords ↔
        it ∈ items ∧ (if keywords.length ≤ 3 then 1 else 2) ≤ newsHits it keywords)) := by
  constructor
  · simp [filterNewsByKeywords]
  · intro hk
    have hne : keywords.isEmpty = false := by
      cases keywords with
      | nil => exact absurd rfl hk
      | cons a as => rfl
    simp [filterNewsByKeywords, hne, minHitsOf, List.mem_filter]

/-- Witness for C3: with 4 keywords, an item with exactly 1 hit is
rejected. -/
theorem c3_filter_threshold_witness :
    filterNewsByKeywords [NewsDoc.mk "alpha news" none (some "beta") (some "Wire")] [] =
      [NewsDoc.mk "alpha news" none (some "beta") (some "Wire")] ∧
    (NewsDoc.mk "alpha news" none (some "beta") (some "Wire") ∈
        filterNewsByKeywords [NewsDoc.mk "alpha news" none (some "beta") (some "Wire")]
          ["alpha", "gamma", "delta", "epsilon"] ↔
      NewsDoc.mk "alpha news" none (some "beta") (some "Wire") ∈
          [NewsDoc.mk "alpha news" none (some "beta") (some "Wire")] ∧
        (if (["alpha", "gamma", "delta", "epsilon"] : List String).length ≤ 3 then 1 else 2) ≤
          newsHits (NewsDoc.mk "alpha news" none (some "beta") (some "Wire"))
            ["alpha", "gamma", "delta", "epsilon"]) :=
  ⟨(c3_filter_threshold [NewsDoc.mk "alpha news" none (some "beta") (some "Wire")]
      ["alpha", "gamma", "delta", "epsilon"]
      (NewsDoc.mk "alpha news" none (some "beta") (some "Wire"))).1,
   (c3_filter_threshold [NewsDoc.mk "alpha news" none (some "beta") (some "Wire")]
      ["alpha", "gamma", "delta", "epsilon"]
      (NewsDoc.mk "alpha news" none (some "beta") (some "Wire"))).2 (by decide)⟩

/-! ## C2: the pipeline is not total — `NewsSource` has no `summary` -/

/-- C2 (code bug): on a healthy cache, with one returned news item and a
non-empty keyword set, `verify_claim` raises `AttributeError` inside
`_filter_news_by_keywords` — schemas.py declares no `summary` field on
`NewsSource`, while the filter reads `item.summary` (and news_client.py
passes `summary=`, silently dropped by pydantic v1). The pipeline is
therefore not total. -/
theorem c2_filter_attribute_error :
    verify c2env [] c2payload = .error .attributeError ∧
    filterNewsPipeline c2news (pipelineKeywords c2env c2payload) = .error .attributeError ∧
    pipelineKeywords c2env c2payload ≠ [] ∧
    nsGetAttr ⟨"Apple launches product X", none, "http://example.com", none, some "Wire"⟩
        "summary" = .error .attributeError :=
  ⟨rfl, rfl, by decide, rfl⟩

/-! ## Non-emptiness of Python string renderings -/

theorem string_mk_ne_empty (l : List Char) (h : l ≠ []) : String.mk l ≠ "" := by
  intro he
  exact h (congrArg String.data he)

theorem append_ne_empty_left (a b : String) (ha : a ≠ "") : a ++ b ≠ "" := by
  intro h
  apply ha
  have hd := congrArg String.data h
  rw [sdata_append] at hd
  have h1 := (List.append_eq_nil.mp hd).1
  cases a with
  | mk l =>
    have hl : l = [] := h1
    rw [hl]

theorem natCharsAux_ne_nil (fuel n : Nat) (h : fuel ≠ 0) : natCharsAux fuel n ≠ [] := by
  cases fuel with
  | zero => exact absurd rfl h
  | succ f =>
    unfold natCharsAux
    by_cases h10 : n < 10
    · simp [h10]
    · simp [h10]

theorem natChars_ne_nil (n : Nat) : natChars n ≠ [] :=
  natCharsAux_ne_nil _ _ (Nat.succ_ne_zero n)

theorem intChars_ne_nil (n : ℤ) : intChars n ≠ [] := by
  unfold intChars
  by_cases hn : n < 0
  · simp [hn]
  · simp [hn]
    exact natChars_ne_nil _

theorem pyNumStr_ne_empty (q : ℚ) : pyNumStr q ≠ "" := by
  unfold pyNumStr
  by_cases h : q.den = 1
  · simp only [h, if_true]
    exact string_mk_ne_empty _ (intChars_ne_nil _)
  · simp only [h, if_false]
    refine string_mk_ne_empty _ ?_
    intro hh
    exact intChars_ne_nil q.num (List.append_eq_nil.mp hh).1

theorem pyStr_ne_empty_of_truthy (v : JValue) (h : jTruthy v = true) : pyStr v ≠ "" := by
  cases v with
  | null => simp [jTruthy] at h
  | bool b =>
    cases b with
    | true => simp [pyStr, pyStrAtom]
    | false => simp [jTruthy] at h
  | num q =>
    show pyNumStr q ≠ ""
    exact pyNumStr_ne_empty q
  | str s =>
    simp only [jTruthy, decide_eq_true_eq] at h
    exact h
  | arr es =>
    exact append_ne_empty_left _ _ (append_ne_empty_left "[" _ (by decide))
  | obj fs =>
    exact append_ne_empty_left _ _
      (append_ne_empty_left (String.mk [lbraceChar]) _ (string_mk_ne_empty _ (by decide)))

theorem pyStrOpt_ne_empty_of_truthy (o : Option JValue) (h : jTruthyOpt o = true) :
    pyStrOpt o ≠ "" := by
  cases o with
  | none => simp [jTruthyOpt] at h
  | some v => exact pyStr_ne_empty_of_truthy v h

/-! ## Bounds and non-emptiness of the parsed LLM judgment -/

/-- The clamp `max(0.0, min(1.0, p))` of `_parse_llm_response`, written
with Python's min/max conditionals, lands in `[0, 1]` for every input. -/
theorem clamp_bounds (p : ℚ) :
    0 ≤ (if 0 < (if p < 1 then p else 1) then (if p < 1 then p else 1) else 0) ∧
      (if 0 < (if p < 1 then p else 1) then (if p < 1 then p else 1) else 0) ≤ 1 := by
  by_cases h1 : p < 1
  · simp only [h1, if_true]
    by_cases h0 : (0 : ℚ) < p
    · simp only [h0, if_true]
      exact ⟨le_of_lt h0, le_of_lt h1⟩
    · simp only [h0, if_false]
      norm_num
  · simp only [h1, if_false]
    norm_num

theorem extractPair_bounds (v : JValue) (p : ℚ) (e : String)
    (h : extractPair v = .ok (some (p, e))) : 0 ≤ p ∧ p ≤ 1 ∧ e ≠ "" := by
  cases v with
  | obj fs =>
    simp only [extractPair, Except.ok.injEq, Option.some.injEq, Prod.mk.injEq] at h
    obtain ⟨hp, he⟩ := h
    refine ⟨?_, ?_, ?_⟩
    · rw [← hp]
      exact (clamp_bounds _).1
    · rw [← hp]
      exact (clamp_bounds _).2
    · rw [← he]
      by_cases ht : jTruthyOpt (jget fs "explanation") = true
      · simp only [ht, if_true]
        exact pyStrOpt_ne_empty_of_truthy _ ht
      · simp only [Bool.not_eq_true] at ht
        simp only [ht, Bool.false_eq_true, if_false]
        decide
  | null => simp [extractPair] at h
  | bool b => simp [extractPair] at h
  | num q => simp [extractPair] at h
  | str s => simp [extractPair] at h
  | arr es => simp [extractPair] at h

theorem parseLLMResponse_bounds (c : String) (p : ℚ) (e : String)
    (h : parseLLMResponse c = .ok (some (p, e))) : 0 ≤ p ∧ p ≤ 1 ∧ e ≠ "" := by
  unfold parseLLMResponse at h
  split at h
  · exact extractPair_bounds _ p e h
  · split at h
    · exact absurd h (by simp)
    · split at h
      · exact extractPair_bounds _ p e h
      · exact absurd h (by simp)

/-- Every pair actually returned by `LLMClient.analyze` is usable: the
probability is clamped into `[0, 1]` and the explanation is non-empty. -/
theorem analyze_pair_spec (k : String) (o : HttpOutcome) (p : ℚ) (e : String)
    (h : analyze k o = some (p, e)) : 0 ≤ p ∧ p ≤ 1 ∧ e ≠ "" := by
  unfold analyze at h
  split at h
  · exact absurd h (by simp)
  · split at h
    · simp only [Option.some.injEq, Prod.mk.injEq] at h
      obtain ⟨hp, he⟩ := h
      refine ⟨by rw [← hp]; decide, by rw [← hp]; decide, ?_⟩
      rw [← he]
      exact append_ne_empty_left _ _ (by decide)
    · split at h
      · exact absurd h (by simp)
      · split at h
        · simp only [Option.some.injEq, Prod.mk.injEq] at h
          obtain ⟨hp2, he⟩ := h
          refine ⟨by rw [← hp2]; decide, by rw [← hp2]; decide, ?_⟩
          rw [← he]
          exact append_ne_empty_left _ _ (by decide)
        · simp only [Option.some.injEq, Prod.mk.injEq] at h
          obtain ⟨hp2, he⟩ := h
          refine ⟨by rw [← hp2]; decide, by rw [← hp2]; decide, ?_⟩
          rw [← he]
          decide
        · rename_i pe heq
          simp only [Option.some.injEq] at h
          rw [h] at heq
          exact parseLLMResponse_bounds _ p e heq

/-! ## C5: the fallback analyzer on a missing credential -/

/-- C5 counterexample: with the API key missing, `LLMClient.analyze`
returns `None` — an absent result — rather than the degraded
`(0.3, explanation)` pair the claim states; the claim as written is false
of `analyze`. -/
theorem c5_counterexample :
    analyze "" (.status 200 c5raw) = none ∧
    ∀ pe : ℚ × String, analyze "" (.status 200 c5raw) ≠ some pe :=
  ⟨rfl, fun _ h => Option.noConfusion h⟩

/-- C5 amended: `analyze` returns `None` exactly on a missing credential
or a non-200 status; every pair it does return has probability in `[0,1]`
and a non-empty explanation; and the orchestrator's fallback stage maps an
absent analyzer result to the degraded judgment `(0.3, ...)` with an
explanation noting that AI analysis produced no results — so the composed
fallback stage always yields a usable pair. -/
theorem c5_amended_analyze_contract :
    (∀ o, analyze "" o = none) ∧
    (∀ k n c, n ≠ 200 → analyze k (.status n c) = none) ∧
    (∀ k o p e, analyze k o = some (p, e) → 0 ≤ p ∧ p ≤ 1 ∧ e ≠ "") ∧
    fallbackJudgment (.completed none) = (0.3, llmNoResultMsg) ∧
    fallbackFinal (.completed none) = (0.3, llmNoResultMsg) := by
  refine ⟨?_, ?_, analyze_pair_spec, ?_, ?_⟩
  · intro o
    simp [analyze]
  · intro k n c hn
    unfold analyze
    by_cases hk : k = ""
    · simp [hk]
    · simp [hk, hn]
  · show (mkRat 3 10, llmNoResultMsg) = (0.3, llmNoResultMsg)
    norm_num [Rat.mkRat_eq_div]
  · show (mkRat 3 10, if llmNoResultMsg = "" then llmFinalEmptyMsg else llmNoResultMsg) =
      (0.3, llmNoResultMsg)
    rw [if_neg (by decide : ¬(llmNoResultMsg = ""))]
    norm_num [Rat.mkRat_eq_div]

/-- Witness for C5 at a concrete parsed response. -/
theorem c5_amended_analyze_contract_witness :
    ∃ p e, analyze "k" (.status 200 c5raw) = some (p, e) ∧ 0 ≤ p ∧ p ≤ 1 ∧ e ≠ "" := by
  obtain ⟨p, e, h⟩ : ∃ p e, analyze "k" (.status 200 c5raw) = some (p, e) := ⟨_, _, rfl⟩
  exact ⟨p, e, h, c5_amended_analyze_contract.2.2.1 "k" _ p e h⟩

/-! ## C9: the lenient LLM-output parser -/

theorem dropWhile_head_false {α : Type} (p : α → Bool) (cs : List α)
    (c : α) (tail : List α) (h : cs.dropWhile p = c :: tail) : p c = false := by
  induction cs with
  | nil => simp [List.dropWhile] at h
  | cons a as ih =>
    rw [List.dropWhile_cons] at h
    by_cases hp : p a = true
    · rw [if_pos hp] at h
      exact ih h
    · rw [if_neg hp] at h
      injection h with h1 _
      rw [← h1]
      exact Bool.not_eq_true _ |>.mp hp

theorem takeWhile_append_dropWhile_eq {α : Type} (p : α → Bool) (cs : List α) :
    cs.takeWhile p ++ cs.dropWhile p = cs := by
  induction cs with
  | nil => rfl
  | cons a as ih =>
    rw [List.takeWhile_cons, List.dropWhile_cons]
    by_cases hp : p a = true
    · rw [if_pos hp, if_pos hp, List.cons_append, ih]
    · rw [if_neg hp, if_neg hp, List.nil_append]

/-- The greedy regex `\x7b.*\x7d` (DOTALL) matches exactly when the text
decomposes as `pre ++ lbrace :: mid ++ rbrace :: post` with no opening
brace in `pre` and no closing brace in `post` — i.e. it spans from the
first opening brace to the last closing brace. -/
theorem greedySpan_eq_some_iff (cs span : List Char) :
    greedySpan cs = some span ↔
      ∃ pre mid post, cs = pre ++ lbraceChar :: (mid ++ rbraceChar :: post) ∧
        lbraceChar ∉ pre ∧ rbraceChar ∉ post ∧
        span = lbraceChar :: (mid ++ [rbraceChar]) := by
  constructor
  · intro h
    unfold greedySpan at h
    split at h
    · exact absurd h (by simp)
    · rename_i c tail heq
      split at h
      · exact absurd h (by simp)
      · rename_i d midRev heq2
        have hc : c = lbraceChar := by
          have := dropWhile_head_false _ _ _ _ heq
          simpa using this
        have hd : d = rbraceChar := by
          have := dropWhile_head_false _ _ _ _ heq2
          simpa using this
        simp only [Option.some.injEq] at h
        obtain ⟨pre, hpreall, h1⟩ :
            ∃ pre, (∀ x ∈ pre, (x != lbraceChar) = true) ∧ cs = pre ++ c :: tail :=
          ⟨cs.takeWhile (fun c => c != lbraceChar),
           fun x hx => by simpa using List.mem_takeWhile_imp hx, by
            rw [← heq]
            exact (takeWhile_append_dropWhile_eq _ _).symm⟩
        obtain ⟨post2, hpostall, h2⟩ :
            ∃ post2, (∀ x ∈ post2, (x != rbraceChar) = true) ∧
              tail.reverse = post2 ++ d :: midRev :=
          ⟨tail.reverse.takeWhile (fun c => c != rbraceChar),
           fun x hx => by simpa using List.mem_takeWhile_imp hx, by
            rw [← heq2]
            exact (takeWhile_append_dropWhile_eq _ _).symm⟩
        have h3 : tail = midRev.reverse ++ rbraceChar :: post2.reverse := by
          have hrev := congrArg List.reverse h2
          rw [List.reverse_reverse] at hrev
          rw [hrev, List.reverse_append, List.reverse_cons, hd]
          simp
        refine ⟨pre, midRev.reverse, post2.reverse, ?_, ?_, ?_, ?_⟩
        · rw [h1, h3, hc]
        · intro hm
          have := hpreall _ hm
          simp at this
        · intro hm
          have := hpostall _ (List.mem_reverse.mp hm)
          simp at this
        · rw [← h]
          simp
  · rintro ⟨pre, mid, post, hcs, hpre, hpost, hspan⟩
    unfold greedySpan
    have h1 : cs.dropWhile (fun c => c != lbraceChar) =
        lbraceChar :: (mid ++ rbraceChar :: post) := by
      rw [hcs, dropWhile_append_of_all _ _ _ (fun a ha => by
        simp only [bne_iff_ne, ne_eq, decide_eq_true_eq]
        intro hh
        exact hpre (hh ▸ ha))]
      rw [List.dropWhile_cons]
      simp
    rw [h1]
    have h2 : (mid ++ rbraceChar :: post).reverse.dropWhile (fun c => c != rbraceChar) =
        rbraceChar :: mid.reverse := by
      rw [List.reverse_append, List.reverse_cons]
      rw [List.append_assoc, dropWhile_append_of_all _ _ _ (fun a ha => by
        simp only [bne_iff_ne, ne_eq, decide_eq_true_eq]
        intro hh
        exact hpost (hh ▸ (List.mem_reverse.mp ha)))]
      simp [List.dropWhile_cons]
    simp only [h1, h2, Option.some.injEq]
    rw [hspan]
    simp

/-- C9 counterexample: on a response holding two complete JSON objects
separated by junk, the greedy first-to-last span is not valid JSON, so
`_parse_llm_response` fails and `analyze` degrades to 0.3 — whereas the
claim's first-balanced-substring parser decodes `(0.7, "e")`. -/
theorem c9_counterexample :
    parseLLMResponse c9raw = .ok none ∧
    (∃ p, claimParse c9raw = .ok (some (p, "e"))) ∧
    analyze "k" (.status 200 c9raw) = some (mkRat 3 10, llmUnparsable) :=
  ⟨rfl, ⟨_, rfl⟩, rfl⟩

/-- C9 amended: the fallback stage decodes the greedy substring from the
first opening to the last closing brace (not the first balanced one); on
total failure the analyzer returns the degraded could-not-parse judgment;
every successfully extracted pair is clamped into `[0,1]` with a non-empty
explanation; a non-coercible probability defaults to 0.5 and a falsy
explanation is replaced by the placeholder. -/
theorem c9_amended_lenient_parsing :
    (∀ cs span, greedySpan cs = some span ↔
      ∃ pre mid post, cs = pre ++ lbraceChar :: (mid ++ rbraceChar :: post) ∧
        lbraceChar ∉ pre ∧ rbraceChar ∉ post ∧
        span = lbraceChar :: (mid ++ [rbraceChar])) ∧
    (∀ c, jsonParse c = none → greedySpan c.data = none → parseLLMResponse c = .ok none) ∧
    (∀ c sp, jsonParse c = none → greedySpan c.data = some sp →
      jsonParse (String.mk sp) = none → parseLLMResponse c = .ok none) ∧
    (∀ c k, k ≠ "" → jsonParse c = none → greedySpan c.data = none →
      analyze k (.status 200 c) = some (mkRat 3 10, llmUnparsable)) ∧
    (∀ c p e, parseLLMResponse c = .ok (some (p, e)) → 0 ≤ p ∧ p ≤ 1 ∧ e ≠ "") ∧
    (∀ fs, pyFloatCoerce (jget fs "probability") = none →
      ∃ e, extractPair (.obj fs) = .ok (some (mkRat 1 2, e))) ∧
    (∀ fs, jTruthyOpt (jget fs "explanation") = false →
      ∃ p, extractPair (.obj fs) = .ok (some (p, llmEmptyExplanation))) := by
  refine ⟨greedySpan_eq_some_iff, ?_, ?_, ?_, parseLLMResponse_bounds, ?_, ?_⟩
  · intro c hj hg
    unfold parseLLMResponse
    simp only [hj, hg]
  · intro c sp hj hg hj2
    unfold parseLLMResponse
    simp only [hj, hg, hj2]
  · intro c k hk hj hg
    unfold analyze
    rw [if_neg hk]
    have hp : parseLLMResponse c = .ok none := by
      unfold parseLLMResponse
      simp only [hj, hg]
    simp [hp]
  · intro fs hco
    refine ⟨if jTruthyOpt (jget fs "explanation") then pyStrOpt (jget fs "explanation")
      else llmEmptyExplanation, ?_⟩
    simp only [extractPair, hco]
    rw [if_pos (show (mkRat 1 2 : ℚ) < 1 by decide),
        if_pos (show (0 : ℚ) < mkRat 1 2 by decide)]
  · intro fs ht
    refine ⟨(fun p => if 0 < (if p < 1 then p else 1) then (if p < 1 then p else 1) else 0)
      (match pyFloatCoerce (jget fs "probability") with
        | some q => q
        | none => mkRat 1 2), ?_⟩
    simp only [extractPair, ht, Bool.false_eq_true, if_false]

/-- Witness for C9 at a concrete object with a non-coercible probability. -/
theorem c9_amended_lenient_parsing_witness :
    ∃ e, extractPair (.obj [("explanation", .str "hi")]) = .ok (some (mkRat 1 2, e)) :=
  c9_amended_lenient_parsing.2.2.2.2.2.1 [("explanation", .str "hi")] rfl

/-! ## Orchestrator branch lemmas (C6, C7, C8) -/

theorem mkRat_9_10 : mkRat 9 10 = (0.9 : ℚ) := by
  norm_num [Rat.mkRat_eq_div]

theorem mkRat_4_10 : mkRat 4 10 = (0.4 : ℚ) := by
  norm_num [Rat.mkRat_eq_div]

theorem mkRat_3_10 : mkRat 3 10 = (0.3 : ℚ) := by
  norm_num [Rat.mkRat_eq_div]

/-- On a miss, or on a hit that fails the modern-schema check, `verify`
runs the full pipeline and stores its response. -/
theorem verify_reaches (env : VerifyEnv) (db : List (String × JValue))
    (payload : CheckRequest) (h : ReachesSearch db payload) :
    ∃ tail, verify env db payload =
      (pipelineResp env payload).map
        (fun r => (r, (pipelineKey payload, JValue.obj (respToJson r)) :: tail)) := by
  rcases h with hmiss | ⟨fs, hfs, hmod⟩
  · refine ⟨db, ?_⟩
    unfold verify
    simp only [hmiss]
  · refine ⟨dbErase db (pipelineKey payload), ?_⟩
    unfold verify
    simp only [hfs, hmod, Bool.false_eq_true, if_false]

theorem pipelineResp_of_filter (env : VerifyEnv) (payload : CheckRequest)
    (l : List NewsSource)
    (hfil : filterNewsPipeline env.news (pipelineKeywords env payload) = .ok l) :
    pipelineResp env payload = .ok (branchResp env payload l) := by
  unfold pipelineResp
  simp only [hfil]

/-- C6: every execution that reaches the search state and completes ends
confirmed exactly when the filtered corroboration list is non-empty, and
in that branch the probability is exactly 0.9 — never 1.0. -/
theorem c6_confirmed_branch (env : VerifyEnv) (db : List (String × JValue))
    (payload : CheckRequest) (l : List NewsSource)
    (hreach : ReachesSearch db payload)
    (hfil : filterNewsPipeline env.news (pipelineKeywords env payload) = .ok l) :
    ∃ r db2, verify env db payload = .ok (r, db2) ∧
      (r.analysis.status = .confirmed ↔ l ≠ []) ∧
      (l ≠ [] → r.analysis.probability = some 0.9 ∧ r.analysis.probability ≠ some 1) := by
  obtain ⟨tail, hv⟩ := verify_reaches env db payload hreach
  rw [pipelineResp_of_filter env payload l hfil] at hv
  refine ⟨branchResp env payload l, _, by rw [hv]; rfl, ?_, ?_⟩
  · cases l with
    | nil =>
      constructor
      · intro hst
        exfalso
        have hne : (branchResp env payload ([] : List NewsSource)).analysis.status ≠
            .confirmed := by
          unfold branchResp
          by_cases hth : mkRat 4 10 ≤ (fallbackFinal env.fallback).1 <;> simp [hth]
        exact hne hst
      · intro hne
        exact absurd rfl hne
    | cons a as =>
      constructor
      · intro _
        simp
      · intro _
        unfold branchResp
        simp
  · cases l with
    | nil => intro hne; exact absurd rfl hne
    | cons a as =>
      intro _
      have hp : (branchResp env payload (a :: as)).analysis.probability =
          some (mkRat 9 10) := by
        unfold branchResp
        simp
      rw [hp, mkRat_9_10]
      exact ⟨rfl, by norm_num⟩

/-- Witness for C6: empty keyword set, one news item — confirmed at 0.9. -/
theorem c6_confirmed_branch_witness :
    ∃ r db2, verify c6env [] c6payload = .ok (r, db2) ∧
      (r.analysis.status = .confirmed ↔ c6news ≠ []) ∧
      (c6news ≠ [] → r.analysis.probability = some 0.9 ∧ r.analysis.probability ≠ some 1) :=
  c6_confirmed_branch c6env [] c6payload c6news (Or.inl rfl) rfl

/-- C7: every execution that reaches the fallback-analyze state maps the
fallback probability to `uncertain` exactly when it is ≥ 0.4 and to
`not_found` otherwise; no other status occurs in that branch. -/
theorem c7_fallback_mapping (env : VerifyEnv) (db : List (String × JValue))
    (payload : CheckRequest)
    (hreach : ReachesSearch db payload)
    (hfil : filterNewsPipeline env.news (pipelineKeywords env payload) = .ok []) :
    ∃ r db2, verify env db payload = .ok (r, db2) ∧
      (r.analysis.status = .uncertain ↔ (0.4 : ℚ) ≤ (fallbackFinal env.fallback).1) ∧
      (r.analysis.status = .uncertain ∨ r.analysis.status = .not_found) ∧
      (fallbackFinal env.fallback).1 = (fallbackJudgment env.fallback).1 := by
  obtain ⟨tail, hv⟩ := verify_reaches env db payload hreach
  rw [pipelineResp_of_filter env payload [] hfil] at hv
  refine ⟨branchResp env payload [], _, by rw [hv]; rfl, ?_, ?_, rfl⟩
  · rw [← mkRat_4_10]
    unfold branchResp
    by_cases hth : mkRat 4 10 ≤ (fallbackFinal env.fallback).1 <;> simp [hth]
  · unfold branchResp
    by_cases hth : mkRat 4 10 ≤ (fallbackFinal env.fallback).1 <;> simp [hth]

/-- Witness for C7: an analyzer result of 0.5 maps to `uncertain`. -/
theorem c7_fallback_mapping_witness :
    ∃ r db2, verify c7env [] c7payload = .ok (r, db2) ∧
      (r.analysis.status = .uncertain ↔ (0.4 : ℚ) ≤ (fallbackFinal c7env.fallback).1) ∧
      (r.analysis.status = .uncertain ∨ r.analysis.status = .not_found) ∧
      (fallbackFinal c7env.fallback).1 = (fallbackJudgment c7env.fallback).1 :=
  c7_fallback_mapping c7env [] c7payload (Or.inl rfl) rfl

/-! ## C8: timeout degradation and distinguishability -/

theorem sappend_assoc (a b c : String) : a ++ b ++ c = a ++ (b ++ c) := by
  cases a with
  | mk l1 =>
    cases b with
    | mk l2 =>
      cases c with
      | mk l3 =>
        show String.mk ((l1 ++ l2) ++ l3) = String.mk (l1 ++ (l2 ++ l3))
        rw [List.append_assoc]

theorem take_append_le {α : Type} (n : Nat) (l₁ l₂ : List α) (h : n ≤ l₁.length) :
    (l₁ ++ l₂).take n = l₁.take n := by
  rw [List.take_append_eq_append_take, Nat.sub_eq_zero_of_le h, List.take_zero,
    List.append_nil]

/-- The timeout explanation differs from every exception-path explanation,
whatever the exception text: the two fixed prefixes already disagree. -/
theorem timeout_ne_unavailable (m : String) : llmTimeoutMsg ≠ llmUnavailable m := by
  intro h
  have hd := congrArg (fun s => s.data.take 11) h
  have hu : llmUnavailable m = "AI-анализ временно недоступен: " ++ m := rfl
  rw [hu] at hd
  simp only [sdata_append] at hd
  rw [take_append_le 11 _ _ (by decide)] at hd
  exact absurd hd (by decide)

theorem listStartsWith_self_append (n rest : List Char) :
    listStartsWith n (n ++ rest) = true := by
  induction n with
  | nil => rfl
  | cons a as ih => simp [listStartsWith, ih]

theorem subOccurs_append_self (needle pre post : List Char) :
    subOccurs needle (pre ++ needle ++ post) = true := by
  induction pre with
  | nil =>
    simp only [List.nil_append]
    cases hn : needle ++ post with
    | nil =>
      have hne : needle = [] := (List.append_eq_nil.mp hn).1
      rw [hne]
      rfl
    | cons c cr =>
      show (listStartsWith needle (c :: cr) || subOccurs needle cr) = true
      rw [← hn, listStartsWith_self_append]
      rfl
  | cons a pr ih =>
    show (listStartsWith needle (a :: (pr ++ needle ++ post)) ||
      subOccurs needle (pr ++ needle ++ post)) = true
    rw [ih]
    simp

theorem subOccurs_string_parts (needle A B : String) :
    subOccurs needle.data (A ++ needle ++ B).data = true := by
  rw [sdata_append, sdata_append]
  exact subOccurs_append_self needle.data A.data B.data

/-- The formal renderer embeds the fallback explanation verbatim. -/
theorem format_formal_contains_base (c s : String) (p : Option ℚ)
    (ent : List (String × List String)) (n : Nat) (base : String) :
    subOccurs base.data (format_formal_explanation c s p ent n base).data = true := by
  have h : format_formal_explanation c s p ent n base =
      ("Проведена автоматическая проверка утверждения:\n\n«" ++ c ++ "».\n\n" ++
       "На основе анализа новостных публикаций и извлечённых сущностей " ++
       "система сформировала следующий вывод: " ++ statusHuman s ++ ". " ++
       "Оценочная вероятность истинности события: " ++ probText p ++ ".\n\n" ++
       "Выделенные сущности: " ++ entitiesText ent ++ ". " ++
       "Количество релевантных публикаций за последнюю неделю: " ++
       String.mk (natChars n) ++ ". " ++
       "Дополнительный анализ (AI):\n\n") ++ base ++
      ("\n\n" ++ "Вывод носит вероятностный характер и не является юридически значимым.") := by
    unfold format_formal_explanation
    simp only [sappend_assoc]
  rw [h]
  exact subOccurs_string_parts base _ _

/-- C8: a timed-out fallback call yields probability 0.3 and the fixed
timeout explanation, distinguishable from every other failure message;
`verify` still returns a verdict (status `not_found`), and in the formal
style the timeout text appears verbatim inside the final explanation. -/
theorem c8_timeout_degradation (env : VerifyEnv) (db : List (String × JValue))
    (payload : CheckRequest)
    (hreach : ReachesSearch db payload)
    (hfil : filterNewsPipeline env.news (pipelineKeywords env payload) = .ok [])
    (ht : env.fallback = .timeout) :
    ∃ r db2, verify env db payload = .ok (r, db2) ∧
      r.analysis.probability = some 0.3 ∧
      r.analysis.status = .not_found ∧
      fallbackFinal env.fallback = (0.3, llmTimeoutMsg) ∧
      llmTimeoutMsg ≠ llmNoResultMsg ∧
      llmTimeoutMsg ≠ llmUnparsable ∧
      (∀ m, llmTimeoutMsg ≠ llmUnavailable m) ∧
      (payload.style = .formal →
        subOccurs llmTimeoutMsg.data r.analysis.explanation.data = true) := by
  obtain ⟨tail, hv⟩ := verify_reaches env db payload hreach
  rw [pipelineResp_of_filter env payload [] hfil] at hv
  have hff : fallbackFinal env.fallback = (mkRat 3 10, llmTimeoutMsg) := by
    rw [ht]
    show (mkRat 3 10, if llmTimeoutMsg = "" then llmFinalEmptyMsg else llmTimeoutMsg) = _
    rw [if_neg (by decide : ¬(llmTimeoutMsg = ""))]
  refine ⟨branchResp env payload [], _, by rw [hv]; rfl, ?_, ?_, ?_, by decide, by decide,
    timeout_ne_unavailable, ?_⟩
  · have hp : (branchResp env payload ([] : List NewsSource)).analysis.probability =
        some (fallbackFinal env.fallback).1 := by
      unfold branchResp
      simp
    rw [hp, hff, mkRat_3_10]
  · unfold branchResp
    rw [hff]
    simp only [List.isEmpty_nil, if_true]
    rw [if_neg (by decide : ¬(mkRat 4 10 ≤ mkRat 3 10))]
  · rw [hff, mkRat_3_10]
  · intro hstyle
    unfold branchResp
    rw [hff, hstyle]
    simp only [List.isEmpty_nil, if_true]
    exact format_formal_contains_base _ _ _ _ _ _

/-- Witness for C8: timeout environment, formal style. -/
theorem c8_timeout_degradation_witness :
    ∃ r db2, verify c8env [] c8payload = .ok (r, db2) ∧
      r.analysis.probability = some 0.3 ∧
      r.analysis.status = .not_found ∧
      fallbackFinal c8env.fallback = (0.3, llmTimeoutMsg) ∧
      llmTimeoutMsg ≠ llmNoResultMsg ∧
      llmTimeoutMsg ≠ llmUnparsable ∧
      (∀ m, llmTimeoutMsg ≠ llmUnavailable m) ∧
      (c8payload.style = .formal →
        subOccurs llmTimeoutMsg.data r.analysis.explanation.data = true) :=
  c8_timeout_degradation c8env [] c8payload (Or.inl rfl) rfl rfl

/-! ## C4: cache schema validity gate -/

/-- C4 counterexample: an entry whose matched-source item is a structured
record with a truthy title but no `url` key is valid under the claim's
wording, yet `_is_cache_entry_modern` rejects it, so `verify_claim` evicts
and recomputes (`cached = false`) instead of serving it. -/
theorem c4_counterexample :
    claimValidSchema c4entry = true ∧
    is_cache_entry_modern c4entry = false ∧
    (verify c4env c4db c4payload).toOption.map (fun x => x.1.cached) = some false := by
  refine ⟨rfl, rfl, ?_⟩
  decide

/-- C4 amended: a stored JSON-object entry is served (as the parsed
verdict, `cached = true`, store untouched) exactly when it passes
`_is_cache_entry_modern` — analysis is a dict and the matched-source list,
if present, is a list of dicts each with a truthy title **and** a `url`
key — and it re-validates as a `CheckResponse`; an entry failing the check
is evicted and verification proceeds exactly as on a cache miss, the entry
itself never causing an error. -/
theorem c4_amended_schema_gate (env : VerifyEnv) (db : List (String × JValue))
    (payload : CheckRequest) (fs : List (String × JValue))
    (hhit : dbLookup db (pipelineKey payload) = some (.obj fs)) :
    (is_cache_entry_modern fs = false →
      dbLookup (dbErase db (pipelineKey payload)) (pipelineKey payload) = none →
      verify env db payload = verify env (dbErase db (pipelineKey payload)) payload) ∧
    (∀ resp, is_cache_entry_modern fs = true →
      respFromJson (objInsert fs "cached" (.bool true)) = .ok resp →
      verify env db payload = .ok (resp, db)) := by
  constructor
  · intro hmod hmiss
    have h1 : verify env db payload = (pipelineResp env payload).map
        (fun r => (r, (pipelineKey payload, JValue.obj (respToJson r)) ::
          dbErase db (pipelineKey payload))) := by
      unfold verify
      simp only [hhit, hmod, Bool.false_eq_true, if_false]
    have h2 : verify env (dbErase db (pipelineKey payload)) payload =
        (pipelineResp env payload).map
        (fun r => (r, (pipelineKey payload, JValue.obj (respToJson r)) ::
          dbErase db (pipelineKey payload))) := by
      unfold verify
      simp only [hmiss]
    rw [h1, h2]
  · intro resp hmod hresp
    unfold verify
    simp only [hhit, hmod, if_true, hresp]

/-- Witness for C4: a legacy entry (bare-string analysis) makes `verify`
behave exactly as on the cache with that entry absent. -/
theorem c4_amended_schema_gate_witness :
    verify c4wEnv c4wDb c4wPayload =
      verify c4wEnv (dbErase c4wDb (pipelineKey c4wPayload)) c4wPayload :=
  (c4_amended_schema_gate c4wEnv c4wDb c4wPayload c4wEntry rfl).1 rfl rfl

/-! ## C1: idempotence through the cache -/

theorem filterNewsPipeline_all_mem (news : List NewsSource) (kws : List String)
    (l : List NewsSource) (h : filterNewsPipeline news kws = .ok l) :
    ∀ x ∈ l, x ∈ news := by
  unfold filterNewsPipeline at h
  by_cases hk : kws.isEmpty
  · rw [if_pos hk] at h
    injection h with h
    rw [← h]
    exact fun x hx => hx
  · rw [if_neg hk] at h
    cases news with
    | nil =>
      have haux : filterNewsPipelineAux kws (minHitsOf kws) [] = .ok [] := rfl
      rw [haux] at h
      injection h with h
      rw [← h]
      intro x hx
      exact absurd hx (List.not_mem_nil x)
    | cons it rest =>
      have haux : filterNewsPipelineAux kws (minHitsOf kws) (it :: rest) =
          .error .attributeError := rfl
      rw [haux] at h
      exact absurd h (by simp)

theorem branchResp_cached (env : VerifyEnv) (payload : CheckRequest)
    (filtered : List NewsSource) : (branchResp env payload filtered).cached = false := rfl

theorem branchResp_matched (env : VerifyEnv) (payload : CheckRequest)
    (filtered : List NewsSource) :
    (branchResp env payload filtered).analysis.matched_sources =
      if filtered.isEmpty then [] else filtered.take 5 := by
  unfold branchResp
  by_cases hf : filtered.isEmpty <;> simp [hf]

theorem branchResp_prob (env : VerifyEnv) (payload : CheckRequest)
    (filtered : List NewsSource) :
    (branchResp env payload filtered).analysis.probability =
      some (if filtered.isEmpty then (fallbackFinal env.fallback).1 else mkRat 9 10) := by
  unfold branchResp
  by_cases hf : filtered.isEmpty <;> simp [hf]

theorem fallbackFinal_prob_bounds (ev : FallbackEvent)
    (hb : match ev with
      | .completed (some pe) => 0 ≤ pe.1 ∧ pe.1 ≤ 1
      | _ => True) :
    0 ≤ (fallbackFinal ev).1 ∧ (fallbackFinal ev).1 ≤ 1 := by
  cases ev with
  | timeout => exact ⟨by decide, by decide⟩
  | exn m =>
    have hfe : (fallbackFinal (.exn m)).1 = mkRat 3 10 := rfl
    rw [hfe]
    exact ⟨by decide, by decide⟩
  | completed r =>
    cases r with
    | none => exact ⟨by decide, by decide⟩
    | some pe =>
      have hfe : (fallbackFinal (.completed (some pe))).1 = pe.1 := rfl
      rw [hfe]
      exact hb

/-- Every response the pipeline stores is well formed: fresh (`cached =
false`), with matched-source titles inherited from the news client (which
never produces an empty title, news_client.py line 77) and a probability
in `[0, 1]`. -/
theorem pipelineResp_stored_wf (env : VerifyEnv) (payload : CheckRequest)
    (r : CheckResponse)
    (hnews : ∀ it ∈ env.news, it.title ≠ "")
    (hfb : match env.fallback with
      | .completed (some pe) => 0 ≤ pe.1 ∧ pe.1 ≤ 1
      | _ => True)
    (h : pipelineResp env payload = .ok r) :
    r.cached = false ∧
    (∀ it ∈ r.analysis.matched_sources, it.title ≠ "") ∧
    (∃ p, r.analysis.probability = some p ∧ 0 ≤ p ∧ p ≤ 1) := by
  unfold pipelineResp at h
  split at h
  · exact absurd h (by simp)
  · rename_i l hfil
    injection h with h
    subst h
    refine ⟨branchResp_cached env payload l, ?_, ?_⟩
    · rw [branchResp_matched]
      by_cases hf : l.isEmpty
      · simp [hf]
      · simp only [hf, Bool.false_eq_true, if_false]
        intro it hit
        exact hnews it
          (filterNewsPipeline_all_mem _ _ _ hfil it (List.mem_of_mem_take hit))
    · rw [branchResp_prob]
      by_cases hf : l.isEmpty
      · simp only [hf, if_true]
        exact ⟨_, rfl, fallbackFinal_prob_bounds env.fallback hfb⟩
      · simp only [hf, Bool.false_eq_true, if_false]
        exact ⟨_, rfl, by decide, by decide⟩

theorem statusStr_roundtrip (st : Status) :
    statusFromJ (some (.str (statusStr st))) = .ok st := by
  cases st <;> rfl

theorem styleStr_roundtrip (sty : Style) :
    styleFromJ (some (.str (styleStr sty))) = .ok sty := by
  cases sty <;> rfl

theorem newsSource_roundtrip (it : NewsSource) :
    newsSourceFromJ (newsSourceToJson it) = .ok it := by
  cases it with
  | mk t d u pa sn => cases d <;> cases pa <;> cases sn <;> rfl

theorem newsList_mapM_roundtrip (l : List NewsSource) :
    (l.map newsSourceToJson).mapM newsSourceFromJ = Except.ok l := by
  induction l with
  | nil => rfl
  | cons a as ih =>
    rw [List.map_cons, List.mapM_cons, newsSource_roundtrip a, ih]
    rfl

theorem probFromJ_num (p : ℚ) (h0 : 0 ≤ p) (h1 : p ≤ 1) :
    probFromJ (some (.num p)) = .ok (some p) := by
  show (if 0 ≤ p ∧ p ≤ 1 then Except.ok (some p)
      else (Except.error PyErr.validationError : Except PyErr (Option ℚ))) =
    Except.ok (some p)
  rw [if_pos ⟨h0, h1⟩]

/-- Re-validating a serialized response (with `cached` forced to `True`)
gives back the same response with `cached = true`, provided the stored
probability is inside the declared bounds. -/
theorem resp_roundtrip (r : CheckResponse)
    (hp : ∃ p, r.analysis.probability = some p ∧ 0 ≤ p ∧ p ≤ 1) :
    respFromJson (objInsert (respToJson r) "cached" (.bool true)) =
      .ok { r with cached := true } := by
  obtain ⟨p, hpp, hp0, hp1⟩ := hp
  cases r with
  | mk claim style analysis cached =>
    cases analysis with
    | mk status probability explanation matched =>
      simp only at hpp
      subst hpp
      have hA : analysisFromJ (some (.obj
          [("status", .str (statusStr status)), ("probability", .num p),
           ("explanation", .str explanation),
           ("matched_sources", .arr (matched.map newsSourceToJson))])) =
          .ok ⟨status, some p, explanation, matched⟩ := by
        show Except.bind (statusFromJ (some (.str (statusStr status))))
            (fun st => Except.bind (probFromJ (some (.num p)))
              (fun pr => Except.bind
                ((matched.map newsSourceToJson).mapM newsSourceFromJ)
                (fun ms => Except.ok (ClaimAnalysis.mk st pr explanation ms)))) =
          Except.ok (ClaimAnalysis.mk status (some p) explanation matched)
        rw [statusStr_roundtrip status]
        show Except.bind (probFromJ (some (.num p)))
            (fun pr => Except.bind ((matched.map newsSourceToJson).mapM newsSourceFromJ)
              (fun ms => Except.ok (ClaimAnalysis.mk status pr explanation ms))) =
          Except.ok (ClaimAnalysis.mk status (some p) explanation matched)
        rw [probFromJ_num p hp0 hp1]
        show Except.bind ((matched.map newsSourceToJson).mapM newsSourceFromJ)
            (fun ms => Except.ok (ClaimAnalysis.mk status (some p) explanation ms)) =
          Except.ok (ClaimAnalysis.mk status (some p) explanation matched)
        rw [newsList_mapM_roundtrip matched]
        rfl
      show Except.bind (styleFromJ (some (.str (styleStr style))))
          (fun sty => Except.bind (analysisFromJ (some (.obj
            [("status", .str (statusStr status)), ("probability", .num p),
             ("explanation", .str explanation),
             ("matched_sources", .arr (matched.map newsSourceToJson))])))
            (fun analysis => Except.ok (CheckResponse.mk claim sty analysis true))) =
        Except.ok (CheckResponse.mk claim style
          (ClaimAnalysis.mk status (some p) explanation matched) true)
      rw [styleStr_roundtrip style]
      show Except.bind (analysisFromJ (some (.obj
          [("status", .str (statusStr status)), ("probability", .num p),
           ("explanation", .str explanation),
           ("matched_sources", .arr (matched.map newsSourceToJson))])))
          (fun analysis => Except.ok (CheckResponse.mk claim style analysis true)) =
        Except.ok (CheckResponse.mk claim style
          (ClaimAnalysis.mk status (some p) explanation matched) true)
      rw [hA]
      rfl

/-- A response stored by the pipeline passes `_is_cache_entry_modern`
when its matched-source titles are non-empty. -/
theorem stored_modern (r : CheckResponse)
    (h : ∀ it ∈ r.analysis.matched_sources, it.title ≠ "") :
    is_cache_entry_modern (respToJson r) = true := by
  show (r.analysis.matched_sources.map newsSourceToJson).all titledWithUrl = true
  rw [List.all_eq_true]
  intro x hx
  obtain ⟨it, hit, hxe⟩ := List.mem_map.mp hx
  rw [← hxe]
  show (decide (it.title ≠ "") && true) = true
  simp [h it hit]

/-- C1: on a fresh healthy cache, a completed first call returns
`cached = false`, and a second call with the identical (text, style)
serves the stored entry: `cached = true` with a verdict equal
field-for-field (explanation text included) to the first call's. -/
theorem c1_idempotence (env : VerifyEnv) (db : List (String × JValue))
    (payload : CheckRequest) (r1 : CheckResponse) (db1 : List (String × JValue))
    (hnews : ∀ it ∈ env.news, it.title ≠ "")
    (hfb : match env.fallback with
      | .completed (some pe) => 0 ≤ pe.1 ∧ pe.1 ≤ 1
      | _ => True)
    (hmiss : dbLookup db (pipelineKey payload) = none)
    (h1 : verify env db payload = .ok (r1, db1)) :
    r1.cached = false ∧
    ∃ r2 db2, verify env db1 payload = .ok (r2, db2) ∧ r2 = { r1 with cached := true } := by
  have hv : verify env db payload = (pipelineResp env payload).map
      (fun r => (r, (pipelineKey payload, JValue.obj (respToJson r)) :: db)) := by
    unfold verify
    simp only [hmiss]
  rw [hv] at h1
  cases hp : pipelineResp env payload with
  | error e =>
    rw [hp] at h1
    exact absurd h1 (by simp [Except.map])
  | ok R =>
    rw [hp] at h1
    simp only [Except.map, Except.ok.injEq, Prod.mk.injEq] at h1
    obtain ⟨hr, hdb⟩ := h1
    subst hr
    obtain ⟨hcached, htitles, hprob⟩ := pipelineResp_stored_wf env payload R hnews hfb hp
    have hlook : dbLookup db1 (pipelineKey payload) = some (.obj (respToJson R)) := by
      rw [← hdb]
      unfold dbLookup
      rw [List.find?_cons_of_pos _ (by simp)]
      rfl
    have hmod : is_cache_entry_modern (respToJson R) = true := stored_modern R htitles
    have hround : respFromJson (objInsert (respToJson R) "cached" (.bool true)) =
        .ok { R with cached := true } := resp_roundtrip R hprob
    refine ⟨hcached, { R with cached := true }, db1, ?_, rfl⟩
    unfold verify
    simp only [hlook, hmod, if_true, hround]

/-- Witness for C1 on a concrete request against an empty cache. -/
theorem c1_idempotence_witness :
    ∃ r1 db1, verify c1env [] c1payload = .ok (r1, db1) ∧ r1.cached = false ∧
      ∃ r2 db2, verify c1env db1 c1payload = .ok (r2, db2) ∧
        r2 = { r1 with cached := true } := by
  obtain ⟨r1, db1, h1⟩ : ∃ r1 db1, verify c1env [] c1payload = .ok (r1, db1) := ⟨_, _, rfl⟩
  obtain ⟨hc, h2⟩ :=
    c1_idempotence c1env [] c1payload r1 db1 (by simp [c1env]) (by trivial) rfl h1
  exact ⟨r1, db1, h1, hc, h2⟩

end NewsVerify
